import Mathlib

/-!
# simple-flv-parser: a shallow embedding of `flv-parser.c`

The C program reads an FLV container from a `FILE *` with `fread`, prints what it
decodes and leaves through `exit`, `assert` or a normal return.  The embedding keeps
that shape:

* the stream is the list of bytes not yet consumed, the offset reached and the
  end-of-file indicator (`feof`); the input is a finite byte sequence, so a short
  `fread` always sets the indicator (device errors are outside the model);
* every C function becomes a function on that state; `exit`, a failed `assert` and a
  read through a `NULL` pointer in `flv_free_tag` become the error side of `Except`;
* machine integers are `Nat` with explicit wrap-around (`uint8_t`, `uint32_t`, and a
  64-bit `size_t`); of the heap only the distinction between `NULL` and an allocated
  object is kept, for the pointers that the C code tests or that `flv_free_tag` reads
  through.  A buffer is the list of bytes that `fread` delivered into it, also where
  the C code passes on the result of `malloc` untested; what the C code prints is
  returned as data.
-/

namespace FlvParser

/-! ## Stream and process model -/

/-- One octet of the input. -/
abbrev Byte := Fin 256

/-- State of the `FILE *g_infile` stream: the bytes still to be read, the offset of the
next byte, and the end-of-file indicator tested by `feof`. -/
structure FILE where
  rest : List Byte
  pos : Nat
  eof : Bool
deriving DecidableEq, Repr

/-- A stream opened on the byte sequence `bs` (what `flv_parser_init` receives). -/
def fopen (bs : List Byte) : FILE := { rest := bs, pos := 0, eof := false }

/-- Ways in which the process stops early: `exit(code)`, a failed `assert`, or a read
through a `NULL` pointer, on which the process is killed. -/
inductive Fatal where
  | exit (code : Int)
  | abort
  | killed
deriving DecidableEq, Repr

deriving instance DecidableEq for Except

/-- An early stop of the process together with the stream state at that moment.  A C
function that may stop the process returns `Except Stop (α × FILE)`. -/
abbrev Stop := Fatal × FILE

/-- The C library call `fread(buf, size, nmemb, g_infile)`: the bytes transferred into
the buffer, the number of complete items read, and the new stream state.  A request of
zero bytes does nothing; a request that cannot be filled transfers what is left and sets
the end-of-file indicator. -/
def fread (size nmemb : Nat) (f : FILE) : List Byte × Nat × FILE :=
  if size * nmemb = 0 then ([], 0, f)
  else
    let got := f.rest.take (size * nmemb)
    (got, got.length / size,
      { rest := f.rest.drop (size * nmemb),
        pos := f.pos + got.length,
        eof := f.eof || decide (got.length < size * nmemb) })

/-- Content of a buffer initialised to `init` after `fread` stored `got` at its start. -/
def store (init got : List Byte) : List Byte := got ++ init.drop got.length

/-- Conversion of a `size_t` or `uint32_t` argument to the `int` parameter of
`check_read_error` (two values are equal as `int` iff they agree modulo `2^32`). -/
def to_int (n : Nat) : Nat := n % 2 ^ 32

/-- The `uint32_t` subtraction `a - b`. -/
def sub_u32 (a b : Nat) : Nat := (a + 2 ^ 32 - b % 2 ^ 32) % 2 ^ 32

/-- The `size_t` subtraction `a - b` (64-bit `size_t`). -/
def sub_size_t (a b : Nat) : Nat := (a + 2 ^ 64 - b % 2 ^ 64) % 2 ^ 64

/-- Requests above `PTRDIFF_MAX` are refused by `malloc`; smaller ones are granted. -/
def malloc_ok (n : Nat) : Bool := decide (n < 2 ^ 63)

/-! ## Primitive readers (`flv-parser.c`, lines 102-218) -/

/-- The C function `die`: prints `Error!` and calls `exit(-1)`. -/
def die {α : Type} (f : FILE) : Except Stop (α × FILE) := .error (Fatal.exit (-1), f)

/-- The C function `flv_get_bits`: `mask = (uint8_t)(((1 << count) - 1) << start_bit)`,
result `(mask & value) >> start_bit`. -/
def flv_get_bits (value start_bit count : Nat) : Nat :=
  let mask := ((((1 <<< count) - 1) <<< start_bit) % 256)
  (mask &&& value) >>> start_bit

/-- The C function `check_read_error`: `1` when the stream is not at end of file and
`count != read_bytes` (both as `int`), else `0`. -/
def check_read_error (f : FILE) (count read_bytes : Nat) : Nat :=
  if !f.eof && decide (to_int count ≠ to_int read_bytes) then 1 else 0

/-- The C function `fread_1`: reads one byte into `*ptr` (old value `ptr`), returns the
new `*ptr` and the item count; `exit(1)` on a read error. -/
def fread_1 (ptr : Byte) (f : FILE) : Except Stop ((Byte × Nat) × FILE) :=
  let r := fread 1 1 f
  if check_read_error r.2.2 r.2.1 1 = 0 then .ok ((r.1.headD ptr, r.2.1 * 1), r.2.2)
  else .error (Fatal.exit 1, r.2.2)

/-- Byte `i` of a local buffer. -/
def byte_at (buf : List Byte) (i : Nat) : Nat := (buf.getD i 0).val

/-- The C function `fread_2`: big-endian 16-bit value of a zeroed 2-byte buffer filled
by one `fread`. -/
def fread_2 (f : FILE) : Except Stop (Nat × FILE) :=
  let r := fread 2 1 f
  let bytes := store (List.replicate 2 0) r.1
  if check_read_error r.2.2 r.2.1 1 = 0 then
    .ok ((((byte_at bytes 0) <<< 8) ||| byte_at bytes 1) % 2 ^ 16, r.2.2)
  else .error (Fatal.exit 1, r.2.2)

/-- The C function `fread_3`: big-endian 24-bit value in a `uint32_t`. -/
def fread_3 (f : FILE) : Except Stop (Nat × FILE) :=
  let r := fread 3 1 f
  let bytes := store (List.replicate 3 0) r.1
  if check_read_error r.2.2 r.2.1 1 = 0 then
    .ok ((((byte_at bytes 0) <<< 16) ||| ((byte_at bytes 1) <<< 8) ||| byte_at bytes 2) % 2 ^ 32,
      r.2.2)
  else .error (Fatal.exit 1, r.2.2)

/-- The C function `fread_4`: big-endian 32-bit value. -/
def fread_4 (f : FILE) : Except Stop (Nat × FILE) :=
  let r := fread 4 1 f
  let bytes := store (List.replicate 4 0) r.1
  if check_read_error r.2.2 r.2.1 1 = 0 then
    .ok ((((byte_at bytes 0) <<< 24) ||| ((byte_at bytes 1) <<< 16) |||
          ((byte_at bytes 2) <<< 8) ||| byte_at bytes 3) % 2 ^ 32, r.2.2)
  else .error (Fatal.exit 1, r.2.2)

/-- The C function `fread_double`: the eight wire bytes are stored reversed into the
union (`b[7 - i] = bytes[i]`); the result is the 64-bit pattern of the `double` on a
little-endian host, `b[0]` being the least significant byte. -/
def fread_double (f : FILE) : Except Stop (Nat × FILE) :=
  let r := fread 8 1 f
  let bytes := store (List.replicate 8 0) r.1
  if check_read_error r.2.2 r.2.1 1 = 0 then
    let b := (List.range 8).map (fun j => byte_at bytes (7 - j))
    .ok ((List.range 8).foldr (fun j acc => acc + b.getD j 0 * 256 ^ j) 0, r.2.2)
  else .error (Fatal.exit 1, r.2.2)

/-! ## Header (`flv-parser.c`, lines 121-143 and 651-697) -/

/-- The packed 9-byte `struct flv_header`. -/
structure flv_header where
  signature : List Byte
  version : Nat
  type_flags : Nat
  data_offset : Nat
deriving DecidableEq, Repr

/-- What `flv_print_header` prints: the version, the two Yes/No answers and the data
offset. -/
structure header_report where
  version : Nat
  has_audio : Bool
  has_video : Bool
  header_size : Nat
deriving DecidableEq, Repr

def FLV_HEADER_AUDIO_BIT : Nat := 2
def FLV_HEADER_VIDEO_BIT : Nat := 0

/-- The global `flv_signature`, the string `FLV`. -/
def flv_signature : List Byte := [0x46, 0x4C, 0x56]

/-- The C function `flv_print_header`. -/
def flv_print_header (h : flv_header) : header_report :=
  { version := h.version,
    has_audio := decide (h.type_flags &&& (1 <<< FLV_HEADER_AUDIO_BIT) ≠ 0),
    has_video := decide (h.type_flags &&& (1 <<< FLV_HEADER_VIDEO_BIT) ≠ 0),
    header_size := h.data_offset }

/-- The nine bytes of the header object after `init_flv_header_t`: signature zero,
version 1, flags zero, offset zero. -/
def init_flv_header_t : List Byte := [0, 0, 0, 1, 0, 0, 0, 0, 0]

/-- The C function `flv_read_header`: one `fread` of the 9-byte struct over the
initialised object, `exit(3)` on a read error, one `assert` per signature byte, then
`ntohl` of the offset field (the big-endian value of bytes 5..8 on any host) and the
report.  The C function returns 0; the model returns what it printed. -/
def flv_read_header (f : FILE) : Except Stop (header_report × FILE) :=
  let r := fread 9 1 f
  let obj := store init_flv_header_t r.1
  if !r.2.2.eof && decide (r.2.1 ≠ 1) then .error (Fatal.exit 3, r.2.2)
  else if (List.range flv_signature.length).all
      (fun i => decide (obj.getD i 0 = flv_signature.getD i 0)) then
    let flv_header : flv_header :=
      { signature := obj.take 3,
        version := byte_at obj 3,
        type_flags := byte_at obj 4,
        data_offset := (((byte_at obj 5) <<< 24) ||| ((byte_at obj 6) <<< 16) |||
          ((byte_at obj 7) <<< 8) ||| byte_at obj 8) % 2 ^ 32 }
    .ok (flv_print_header flv_header, r.2.2)
  else .error (Fatal.abort, r.2.2)

/-! ## Audio payload (`flv-parser.c`, lines 219-297) -/

/-- The C struct `audio_tag_t`; `aac_packet_type` is the byte printed as
`AACPacketType` (the C struct does not keep it). -/
structure audio_tag where
  sound_format : Nat
  sound_rate : Nat
  sound_size : Nat
  sound_type : Nat
  data : List Byte
  aac_packet_type : Option Byte
deriving DecidableEq, Repr

/-- The C function `read_audio_tag`, given the `data_size` of the enclosing tag.  The
length passed to `malloc` and `fread` is the `size_t` expression `data_size - 1` (or
`- 2` for AAC); `NULL` is returned when `check_read_error` reports an error. -/
def read_audio_tag (data_size : Nat) (f : FILE) :
    Except Stop (Option audio_tag × FILE) := do
  let ((byte, _), f1) ← fread_1 0 f
  let sound_format := flv_get_bits byte.val 4 4
  let sound_rate := flv_get_bits byte.val 2 2
  let sound_size := flv_get_bits byte.val 1 1
  let sound_type := flv_get_bits byte.val 0 1
  if sound_format ≠ 10 then
    let r := fread 1 (sub_size_t data_size 1) f1
    if check_read_error r.2.2 r.2.1 (sub_u32 data_size 1) = 0 then
      pure (some { sound_format, sound_rate, sound_size, sound_type,
                   data := r.1, aac_packet_type := none }, r.2.2)
    else pure (none, r.2.2)
  else
    let ((byte2, _), f2) ← fread_1 0 f1
    let r := fread 1 (sub_size_t data_size 2) f2
    if check_read_error r.2.2 r.2.1 (sub_u32 data_size 2) = 0 then
      pure (some { sound_format, sound_rate, sound_size, sound_type,
                   data := r.1, aac_packet_type := some byte2 }, r.2.2)
    else pure (none, r.2.2)

/-! ## Video payload (`flv-parser.c`, lines 298-473) -/

def FLV_CODEC_ID_AVC : Nat := 7

/-- The C struct `avc_video_tag_t`. -/
structure avc_video_tag where
  avc_packet_type : Nat
  composition_time : Nat
  nalu_len : Nat
  data : List Byte
deriving DecidableEq, Repr

/-- The `data` pointer of a `video_tag_t`: `NULL`, a raw buffer, or the result of
`read_avc_video_tag` (itself possibly `NULL`). -/
inductive video_data where
  | null
  | raw (bytes : List Byte)
  | avc (t : Option avc_video_tag)
deriving DecidableEq, Repr

/-- The C struct `video_tag_t`; `seek` is the byte read and reported for an info/command
frame (the C struct does not keep it). -/
structure video_tag where
  frame_type : Nat
  codec_id : Nat
  data : video_data
  seek : Option Byte
deriving DecidableEq, Repr

/-- The C function `read_avc_video_tag` with its `data_size` argument.  `NULL` when the
NALU buffer cannot be allocated or `check_read_error` reports an error. -/
def read_avc_video_tag (data_size : Nat) (f : FILE) :
    Except Stop (Option avc_video_tag × FILE) := do
  let ((avc_packet_type, _), f1) ← fread_1 0 f
  let (composition_time, f2) ← fread_3 f1
  let (nalu_len, f3) ← (if avc_packet_type.val = 1 then fread_4 f2 else pure (0, f2))
  if avc_packet_type.val = 1 then
    let n := sub_size_t (sub_size_t (sub_size_t data_size 1) 3) 4
    if !malloc_ok n then pure (none, f3)
    else
      let r := fread 1 n f3
      if check_read_error r.2.2 r.2.1 (sub_u32 data_size 8) ≠ 0 then pure (none, r.2.2)
      else pure (some { avc_packet_type := avc_packet_type.val, composition_time, nalu_len,
                        data := r.1 }, r.2.2)
  else
    let n := sub_size_t (sub_size_t data_size 1) 3
    let r := fread 1 n f3
    if check_read_error r.2.2 r.2.1 (sub_u32 data_size 4) ≠ 0 then pure (none, r.2.2)
    else pure (some { avc_packet_type := avc_packet_type.val, composition_time, nalu_len,
                      data := r.1 }, r.2.2)

/-- The C function `read_video_tag`, given the `data_size` of the enclosing tag. -/
def read_video_tag (data_size : Nat) (f : FILE) :
    Except Stop (Option video_tag × FILE) := do
  let ((byte, _), f1) ← fread_1 0 f
  let frame_type := flv_get_bits byte.val 4 4
  let codec_id := flv_get_bits byte.val 0 4
  if frame_type ≠ 5 then
    if codec_id = FLV_CODEC_ID_AVC then
      let (t, f2) ← read_avc_video_tag (sub_u32 data_size 1) f1
      pure (some { frame_type, codec_id, data := video_data.avc t, seek := none }, f2)
    else
      let r := fread 1 (sub_size_t data_size 1) f1
      if check_read_error r.2.2 r.2.1 (sub_u32 data_size 1) ≠ 0 then pure (none, r.2.2)
      else pure (some { frame_type, codec_id, data := video_data.raw r.1, seek := none },
                 r.2.2)
  else
    let ((byte2, _), f2) ← fread_1 0 f1
    pure (some { frame_type, codec_id, data := video_data.null, seek := some byte2 }, f2)

/-! ## Script data (`flv-parser.c`, lines 494-602) -/

def AMF_TYPE_NUMBER : Nat := 0
def AMF_TYPE_BOOLEAN : Nat := 1
def AMF_TYPE_STRING : Nat := 2

/-- A decoded property value: the bit pattern of a `double`, a byte, or string bytes. -/
inductive amf_value where
  | number (bits : Nat)
  | boolean (v : Byte)
  | string (s : List Byte)
deriving DecidableEq, Repr

/-- One `Property:` line printed by `read_scriptdata_tag`: the bytes transferred into the
name buffer and the decoded value. -/
structure property where
  name : List Byte
  value : amf_value
deriving DecidableEq, Repr

/-- The `for` loop of `read_scriptdata_tag` with `n` iterations left; `type` is the
current content of the local variable `type`.  The Boolean of the result tells whether
the loop ran to its end (`false`: the function returned from inside the loop). -/
def read_properties : Nat → Byte → FILE → Except Stop ((Bool × List property) × FILE)
  | 0, _, f => pure ((true, []), f)
  | n + 1, type, f => do
    let (length, f1) ← fread_2 f
    let rn := fread 1 length f1
    let ((type, _), f2) ← fread_1 type rn.2.2
    if type.val = AMF_TYPE_NUMBER then
      let (data1, f3) ← fread_double f2
      let ((fin, ps), f4) ← read_properties n type f3
      pure ((fin, { name := rn.1, value := amf_value.number data1 } :: ps), f4)
    else if type.val = AMF_TYPE_BOOLEAN then
      let ((value, _), f3) ← fread_1 0 f2
      let ((fin, ps), f4) ← read_properties n type f3
      pure ((fin, { name := rn.1, value := amf_value.boolean value } :: ps), f4)
    else if type.val = AMF_TYPE_STRING then
      let (length, f3) ← fread_2 f2
      let r := fread 1 length f3
      if !r.2.2.eof && decide (r.2.1 ≠ length) then pure ((false, []), r.2.2)
      else
        let ((fin, ps), f4) ← read_properties n type r.2.2
        pure ((fin, { name := rn.1, value := amf_value.string r.1 } :: ps), f4)
    else read_properties n type f2

/-- The C function `read_scriptdata_tag`: type byte, 16-bit length, a fixed 10-byte
`fread` for the key, type byte, 32-bit element count, the property loop and a 3-byte
end marker.  It takes no argument and returns nothing; the model returns the properties
it printed. -/
def read_scriptdata_tag (f : FILE) : Except Stop (List property × FILE) := do
  let ((type, _), f1) ← fread_1 0 f
  let (_length, f2) ← fread_2 f1
  let rk := fread 1 10 f2
  if !rk.2.2.eof && decide (rk.2.1 ≠ 10) then pure ([], rk.2.2)
  else
    let ((type, _), f3) ← fread_1 type rk.2.2
    let (ecma_array_length, f4) ← fread_4 f3
    let ((fin, ps), f5) ← read_properties ecma_array_length type f4
    if !fin then pure (ps, f5)
    else
      let re := fread 1 3 f5
      pure (ps, re.2.2)

/-! ## Tags and the main loop (`flv-parser.c`, lines 603-789) -/

def TAGTYPE_AUDIODATA : Nat := 8
def TAGTYPE_VIDEODATA : Nat := 9
def TAGTYPE_SCRIPTDATAOBJECT : Nat := 18

/-- The `void *data` of a tag: `NULL`, the result of `read_audio_tag` or of
`read_video_tag`.  For a script tag the pointer stays `NULL`; the constructor `script`
records the properties printed by `read_scriptdata_tag`. -/
inductive tag_data where
  | null
  | audio (t : Option audio_tag)
  | video (t : Option video_tag)
  | script (printed : List property)
deriving DecidableEq, Repr

/-- The C struct `flv_tag_t`. -/
structure flv_tag where
  filter : Nat
  tag_type : Nat
  data_size : Nat
  timestamp : Nat
  timestamp_ext : Nat
  stream_id : Nat
  data : tag_data
deriving DecidableEq, Repr

/-- First part of the C function `flv_read_tag` (lines 740-762): the previous tag size,
the leading byte (`NULL` is returned when `fread_1` delivered nothing), then the ten
remaining bytes of the tag header.  `data` is still `NULL`. -/
def flv_read_tag_header (f : FILE) : Except Stop (Option flv_tag × FILE) := do
  let (_prev_tag_size, f1) ← fread_4 f
  let ((first_byte, count), f2) ← fread_1 0 f1
  if count = 0 then pure (none, f2)
  else
    let (data_size, f3) ← fread_3 f2
    let (timestamp, f4) ← fread_3 f3
    let ((timestamp_ext, _), f5) ← fread_1 0 f4
    let (stream_id, f6) ← fread_3 f5
    pure (some { filter := (first_byte.val &&& (1 <<< 4)) % 256,
                 tag_type := (first_byte.val &&& 0x1F) % 256,
                 data_size, timestamp, timestamp_ext := timestamp_ext.val, stream_id,
                 data := tag_data.null }, f6)

/-- The C function `flv_read_tag`: the tag header, then the `switch` on `tag_type`
(lines 768-787); an unknown type ends in `die`. -/
def flv_read_tag (f : FILE) : Except Stop (Option flv_tag × FILE) := do
  let (t, f1) ← flv_read_tag_header f
  match t with
  | none => pure (none, f1)
  | some tag =>
    if tag.tag_type = TAGTYPE_AUDIODATA then
      let (a, f2) ← read_audio_tag tag.data_size f1
      pure (some { tag with data := tag_data.audio a }, f2)
    else if tag.tag_type = TAGTYPE_VIDEODATA then
      let (v, f2) ← read_video_tag tag.data_size f1
      pure (some { tag with data := tag_data.video v }, f2)
    else if tag.tag_type = TAGTYPE_SCRIPTDATAOBJECT then
      let (ps, f2) ← read_scriptdata_tag f1
      pure (some { tag with data := tag_data.script ps }, f2)
    else die f1

/-- The C function `flv_free_tag` (lines 623-650), reduced to what decides whether the
call returns.  For a video tag `video_tag->codec_id` is read through `tag->data`, and
for codec id 7 `avc_video_tag->data` is read through `video_tag->data`; for an audio tag
`audio_tag->data` is read through `tag->data`.  A read through `NULL` kills the process;
`free` accepts `NULL`, so the pointers that are only freed do not matter.  (The
combinations that `flv_read_tag` never builds, such as a video tag holding an audio
payload, are given as allocated objects.) -/
def flv_free_tag (tag : flv_tag) : Except Fatal Unit :=
  if tag.tag_type = TAGTYPE_VIDEODATA then
    match tag.data with
    | tag_data.null => .error Fatal.killed
    | tag_data.video none => .error Fatal.killed
    | tag_data.video (some video_tag) =>
      if video_tag.codec_id = FLV_CODEC_ID_AVC then
        match video_tag.data with
        | video_data.null => .error Fatal.killed
        | video_data.avc none => .error Fatal.killed
        | _ => .ok ()
      else .ok ()
    | _ => .ok ()
  else if tag.tag_type = TAGTYPE_AUDIODATA then
    match tag.data with
    | tag_data.null => .error Fatal.killed
    | tag_data.audio none => .error Fatal.killed
    | _ => .ok ()
  else .ok ()

/-- How a run of the parser ends: `flv_parser_run` returned `code`, the process was
stopped, or the loop was still going when the iteration budget of the model ran out. -/
inductive Outcome where
  | returned (code : Int)
  | stopped (e : Fatal)
  | running
deriving DecidableEq, Repr

/-- A run: the tags produced, in order, the final stream state and the outcome. -/
structure Run where
  tags : List flv_tag
  final : FILE
  outcome : Outcome
deriving DecidableEq, Repr

/-- The `for (;;)` loop of `flv_parser_run`, at most `fuel` iterations: read a tag,
return 0 when there is none, otherwise free it and go on.  A tag on which `flv_free_tag`
faults is the last one of the run. -/
def tag_loop : Nat → FILE → Run
  | 0, f => { tags := [], final := f, outcome := Outcome.running }
  | fuel + 1, f =>
    match flv_read_tag f with
    | .error (e, f1) => { tags := [], final := f1, outcome := Outcome.stopped e }
    | .ok (none, f1) => { tags := [], final := f1, outcome := Outcome.returned 0 }
    | .ok (some tag, f1) =>
      match flv_free_tag tag with
      | .error e => { tags := [tag], final := f1, outcome := Outcome.stopped e }
      | .ok _ =>
        let r := tag_loop fuel f1
        { r with tags := tag :: r.tags }

/-- The C function `flv_parser_run` on the stream installed by `flv_parser_init`.  Every
iteration that continues has consumed at least one byte, so `f.rest.length + 1`
iterations are a budget the loop cannot exhaust. -/
def flv_parser_run (f : FILE) : Run :=
  match flv_read_header f with
  | .error (e, f1) => { tags := [], final := f1, outcome := Outcome.stopped e }
  | .ok (_, f1) => tag_loop (f1.rest.length + 1) f1


/-! ## Notions used to state the properties -/

/-- Big-endian value of the first `k` bytes of `bs`, missing bytes read as zero. -/
def be_value (k : Nat) (bs : List Byte) : Nat :=
  (List.range k).foldl (fun acc i => acc * 256 + byte_at bs i) 0

/-- The fact `tags_read f ts g`: starting at `f`, successive calls of `flv_read_tag`
returned the tags `ts`, in order, and left the stream at `g`. -/
inductive tags_read : FILE → List flv_tag → FILE → Prop where
  | nil (f : FILE) : tags_read f [] f
  | cons {f f1 g : FILE} {t : flv_tag} {ts : List flv_tag} :
      flv_read_tag f = .ok (some t, f1) → tags_read f1 ts g → tags_read f (t :: ts) g

/-- Number of payload bytes that the audio or video decoder of a tag reads before the raw
data, as a function of the tag type and of the first payload bytes: audio reads 1 byte,
2 for AAC (sound_format 10); video reads 1 byte, and for AVC (codec_id 7) 4 more, and 4
more again for a NALU packet (packet type 1). -/
def fixed_header_bytes (tag_type : Nat) (payload : List Byte) : Nat :=
  if tag_type = TAGTYPE_AUDIODATA then
    if byte_at payload 0 >>> 4 = 10 then 2 else 1
  else if byte_at payload 0 &&& 15 = FLV_CODEC_ID_AVC then
    if byte_at payload 1 = 1 then 9 else 5
  else 1

/-- The name table `sound_formats` (`flv-parser.c`, lines 10-27). -/
def sound_formats : List String :=
  ["Linear PCM, platform endian", "ADPCM", "MP3", "Linear PCM, little endian",
   "Nellymoser 16 kHz mono", "Nellymoser 8 kHz mono", "Nellymoser",
   "G.711 A-law logarithmic PCM", "G.711 mu-law logarithmic PCM", "reserved", "AAC",
   "Speex", "not defined by standard", "not defined by standard", "MP3 8-Khz",
   "Device-specific sound"]

/-- The name table `sound_rates` (lines 29-34). -/
def sound_rates : List String := ["5.5 Khz", "11 Khz", "22 Khz", "44 Khz"]

/-- The name table `sound_sizes` (lines 36-39). -/
def sound_sizes : List String := ["8-bit samples", "16-bit samples"]

/-- The name table `sound_types` (lines 41-44). -/
def sound_types : List String := ["Mono sound", "Stereo sound"]

/-- The `k` big-endian bytes of `n`, most significant first. -/
def be_bytes : Nat → Nat → List Byte
  | 0, _ => []
  | k + 1, n => ⟨n / 256 ^ k % 256, Nat.mod_lt _ (by decide)⟩ :: be_bytes k n

/-- The value part of a property as it lies in a script payload: a value of one of the
three supported types, or the bare type tag of any other type (the decoder reads no value
bytes for it). -/
inductive wire_value where
  | supported (v : amf_value)
  | other (tag : Byte)
deriving DecidableEq, Repr

/-- A property as it lies in a script payload. -/
structure wire_property where
  name : List Byte
  value : wire_value
deriving DecidableEq, Repr

/-- The type tag byte of a property. -/
def type_tag : wire_value → Byte
  | .supported (.number _) => 0
  | .supported (.boolean _) => 1
  | .supported (.string _) => 2
  | .other tag => tag

/-- The bytes after the type tag: an 8-byte double, one byte, a 2-byte length followed by
the string bytes, or nothing. -/
def value_bytes : wire_value → List Byte
  | .supported (.number bits) => be_bytes 8 bits
  | .supported (.boolean v) => [v]
  | .supported (.string s) => be_bytes 2 s.length ++ s
  | .other _ => []

/-- Number of value bytes: 8, 1, 2 + string length, or 0 for an unsupported type. -/
def value_size : wire_value → Nat
  | .supported (.number _) => 8
  | .supported (.boolean _) => 1
  | .supported (.string s) => 2 + s.length
  | .other _ => 0

/-- Wire form of a property: 2-byte name length, name, type tag, value bytes. -/
def encode_property (p : wire_property) : List Byte :=
  be_bytes 2 p.name.length ++ (p.name ++ (type_tag p.value :: value_bytes p.value))

/-- Wire form of a list of properties, one after the other. -/
def encode_properties : List wire_property → List Byte
  | [] => []
  | p :: ps => encode_property p ++ encode_properties ps

/-- Bytes taken by a property: 2 + name length + 1 + value bytes. -/
def property_size (p : wire_property) : Nat := 2 + p.name.length + 1 + value_size p.value

/-- A property fits its wire form: lengths fit 16 bits, the double fits 64 bits, and an
unsupported type tag is none of 0, 1, 2. -/
def wire_ok (p : wire_property) : Bool :=
  decide (p.name.length < 65536) &&
    match p.value with
    | .supported (.number bits) => decide (bits < 2 ^ 64)
    | .supported (.boolean _) => true
    | .supported (.string s) => decide (s.length < 65536)
    | .other tag => decide (2 < tag.val)

/-- The properties that the decoder reports for a list of wire properties: those of a
supported type, in order. -/
def reported : List wire_property → List property
  | [] => []
  | p :: ps =>
    match p.value with
    | .supported v => { name := p.name, value := v } :: reported ps
    | .other _ => reported ps

/-- A decoded property seen as a wire property. -/
def to_wire (p : property) : wire_property :=
  { name := p.name, value := wire_value.supported p.value }

/-- The name table `frame_types` (`flv-parser.c`, lines 46-53). -/
def frame_types : List String :=
  ["not defined by standard", "keyframe (for AVC, a seekable frame)",
   "inter frame (for AVC, a non-seekable frame)", "disposable inter frame (H.263 only)",
   "generated keyframe (reserved for server use only)", "video info/command frame"]

/-- The name table `codec_ids` (lines 55-64). -/
def codec_ids : List String :=
  ["not defined by standard", "not defined by standard", "Sorenson H.263", "Screen video",
   "On2 VP6", "On2 VP6 with alpha channel", "Screen video version 2", "AVC"]

/-- The bit-field extractor as the specification words it:
`extract(byte, start_bit, width) = (byte >> start_bit) & ((1 << width) - 1)`. -/
def extract (byte start_bit width : Nat) : Nat :=
  (byte >>> start_bit) &&& ((1 <<< width) - 1)

/-- Value of a sequence of bytes in memory read as a little-endian integer (first byte
least significant). -/
def le_value : List Byte → Nat
  | [] => 0
  | b :: bs => b.val + 256 * le_value bs

/-- The number denoted by the 64-bit pattern of an IEEE-754 double, for a zero, a
subnormal or a normal pattern (`none` for infinities and NaN): sign in bit 63, biased
exponent in bits 52..62, fraction in bits 0..51. -/
def ieee_754_value (bits : Nat) : Option ℚ :=
  let sign : ℚ := if bits / 2 ^ 63 % 2 = 1 then -1 else 1
  let e : Nat := bits / 2 ^ 52 % 2 ^ 11
  let m : Nat := bits % 2 ^ 52
  if e = 2047 then none
  else if e = 0 then some (sign * (m : ℚ) / 2 ^ 1074)
  else if 1075 ≤ e then some (sign * ((2 ^ 52 + m : Nat) : ℚ) * 2 ^ (e - 1075))
  else some (sign * ((2 ^ 52 + m : Nat) : ℚ) / 2 ^ (1075 - e))

/-! ## Arithmetic helpers -/

theorem be16_eq (a b : Nat) (hb : b < 256) : (a <<< 8) ||| b = a * 256 + b := by
  rw [Nat.shiftLeft_eq, Nat.mul_comm a, ← Nat.mul_add_lt_is_or (by simpa using hb)]

theorem be24_eq (a b c : Nat) (hb : b < 256) (hc : c < 256) :
    (a <<< 16) ||| (b <<< 8) ||| c = a * 65536 + b * 256 + c := by
  have h1 : (a <<< 16) ||| (b <<< 8) = a * 65536 + b * 256 := by
    rw [Nat.shiftLeft_eq, Nat.shiftLeft_eq, Nat.mul_comm a,
      ← Nat.mul_add_lt_is_or (by omega)]
  have h2 : a * 65536 + b * 256 = 2 ^ 8 * (a * 256 + b) := by omega
  rw [h1, h2, ← Nat.mul_add_lt_is_or (by simpa using hc)]

theorem be32_eq (a b c d : Nat) (hb : b < 256) (hc : c < 256) (hd : d < 256) :
    (a <<< 24) ||| (b <<< 16) ||| (c <<< 8) ||| d
      = a * 16777216 + b * 65536 + c * 256 + d := by
  have h1 : (a <<< 24) ||| (b <<< 16) = (a * 256 + b) <<< 16 := by
    rw [Nat.shiftLeft_eq, Nat.shiftLeft_eq, Nat.shiftLeft_eq, Nat.mul_comm a,
      ← Nat.mul_add_lt_is_or (by omega)]
    omega
  rw [h1, be24_eq _ _ _ hc hd]
  omega

/-! ## The primitive readers never stop the process -/

theorem fread_rest_length (size nmemb : Nat) (f : FILE) :
    (fread size nmemb f).2.2.rest.length = f.rest.length - (size * nmemb) := by
  unfold fread
  split
  · rename_i h; simp [h]
  · simp

theorem check_fread_item (k : Nat) (hk : 0 < k) (f : FILE) :
    check_read_error (fread k 1 f).2.2 (fread k 1 f).2.1 1 = 0 := by
  unfold check_read_error fread
  have hk0 : k * 1 ≠ 0 := by omega
  simp only [hk0, if_false]
  by_cases h : f.rest.length < k
  · simp [h]
  · have : min k f.rest.length = k := by omega
    simp [this, Nat.div_self hk]

theorem sub_size_t_to_int (d k : Nat) (hk : k < 2 ^ 32) :
    to_int (sub_size_t d k) = to_int (sub_u32 d k) := by
  unfold to_int sub_size_t sub_u32
  norm_num
  omega

theorem check_fread_bytes (n m : Nat) (h : to_int n = to_int m) (f : FILE) :
    check_read_error (fread 1 n f).2.2 (fread 1 n f).2.1 m = 0 := by
  unfold check_read_error fread
  by_cases hn : n = 0
  · subst hn; simp [← h]
  · simp only [Nat.one_mul, hn, if_false]
    by_cases hl : f.rest.length < n
    · simp [hl]
    · have : min n f.rest.length = n := by omega
      simp [this, h]

/-- State of the stream after `n` bytes were requested from it. -/
theorem fread_state (size nmemb : Nat) (f : FILE) :
    (fread size nmemb f).2.2 =
      { rest := f.rest.drop (size * nmemb),
        pos := f.pos + min (size * nmemb) f.rest.length,
        eof := f.eof || decide (f.rest.length < size * nmemb) } := by
  unfold fread
  split
  · rename_i h; simp [h]
  · simp

theorem fread_1_ok (ptr : Byte) (f : FILE) :
    fread_1 ptr f = .ok ((f.rest.headD ptr, min 1 f.rest.length), (fread 1 1 f).2.2) := by
  unfold fread_1
  simp only [check_fread_item 1 (by decide) f, if_true]
  cases f with
  | mk rest pos eof => cases rest <;> simp [fread]

theorem fread_1_cons (ptr b : Byte) (rest : List Byte) (pos : Nat) (eof : Bool) :
    fread_1 ptr ⟨b :: rest, pos, eof⟩ = .ok ((b, 1), ⟨rest, pos + 1, eof⟩) := by
  rw [fread_1_ok]; simp [fread]

theorem fread_1_nil (ptr : Byte) (pos : Nat) (eof : Bool) :
    fread_1 ptr ⟨[], pos, eof⟩ = .ok ((ptr, 0), ⟨[], pos, true⟩) := by
  rw [fread_1_ok]; simp [fread]

theorem fread_item_got (k : Nat) (hk : 0 < k) (f : FILE) :
    (fread k 1 f).1 = f.rest.take k := by
  unfold fread
  have hk0 : k ≠ 0 := by omega
  simp [hk0]

theorem byte_at_lt (bs : List Byte) (i : Nat) : byte_at bs i < 256 := (bs.getD i 0).isLt

theorem byte_at_store (k i : Nat) (h : i < k) (bs : List Byte) :
    byte_at (store (List.replicate k 0) (bs.take k)) i = byte_at bs i := by
  unfold byte_at store
  simp only [List.getD_eq_getElem?_getD, List.getElem?_append, List.length_take]
  by_cases hi : i < bs.length
  · have : i < min k bs.length := by omega
    simp [this, List.getElem?_take, h, List.getElem?_eq_getElem hi]
  · have : ¬ i < min k bs.length := by omega
    have hnone : bs[i]? = none := by simp; omega
    simp only [this, if_false, hnone, Option.getD_none]
    simp only [List.getElem?_drop, List.getElem?_replicate]
    split <;> simp

theorem fread_2_ok (f : FILE) :
    fread_2 f = .ok (be_value 2 f.rest, (fread 2 1 f).2.2) := by
  unfold fread_2
  simp only [check_fread_item 2 (by decide) f, if_true, fread_item_got 2 (by decide),
    byte_at_store 2 0 (by decide), byte_at_store 2 1 (by decide)]
  have h0 := byte_at_lt f.rest 0
  have h1 := byte_at_lt f.rest 1
  rw [be16_eq _ _ h1]
  simp only [be_value, List.range_succ, List.range_zero, List.nil_append, List.foldl_cons,
    List.foldl_nil, List.singleton_append]
  congr 2
  omega

theorem fread_3_ok (f : FILE) :
    fread_3 f = .ok (be_value 3 f.rest, (fread 3 1 f).2.2) := by
  unfold fread_3
  simp only [check_fread_item 3 (by decide) f, if_true, fread_item_got 3 (by decide),
    byte_at_store 3 0 (by decide), byte_at_store 3 1 (by decide), byte_at_store 3 2 (by decide)]
  have h0 := byte_at_lt f.rest 0
  have h1 := byte_at_lt f.rest 1
  have h2 := byte_at_lt f.rest 2
  rw [be24_eq _ _ _ h1 h2]
  simp only [be_value, List.range_succ, List.range_zero, List.nil_append, List.foldl_cons,
    List.foldl_nil, List.singleton_append, List.cons_append]
  congr 2
  omega

theorem fread_4_ok (f : FILE) :
    fread_4 f = .ok (be_value 4 f.rest, (fread 4 1 f).2.2) := by
  unfold fread_4
  simp only [check_fread_item 4 (by decide) f, if_true, fread_item_got 4 (by decide),
    byte_at_store 4 0 (by decide), byte_at_store 4 1 (by decide), byte_at_store 4 2 (by decide),
    byte_at_store 4 3 (by decide)]
  have h0 := byte_at_lt f.rest 0
  have h1 := byte_at_lt f.rest 1
  have h2 := byte_at_lt f.rest 2
  have h3 := byte_at_lt f.rest 3
  rw [be32_eq _ _ _ _ h1 h2 h3]
  simp only [be_value, List.range_succ, List.range_zero, List.nil_append, List.foldl_cons,
    List.foldl_nil, List.singleton_append, List.cons_append]
  congr 2
  omega

theorem fread_double_ok (f : FILE) :
    fread_double f = .ok (be_value 8 f.rest, (fread 8 1 f).2.2) := by
  unfold fread_double
  simp only [check_fread_item 8 (by decide) f, if_true, fread_item_got 8 (by decide)]
  congr 2
  simp only [be_value, List.range_succ, List.range_zero, List.nil_append, List.foldl_cons,
    List.foldl_nil, List.singleton_append, List.cons_append, List.map_cons,
    List.map_nil, List.foldr_cons, List.foldr_nil, List.getD_cons_zero, List.getD_cons_succ]
  simp only [byte_at_store 8 _ (by decide : 0 < 8), byte_at_store 8 _ (by decide : 1 < 8),
    byte_at_store 8 _ (by decide : 2 < 8), byte_at_store 8 _ (by decide : 3 < 8),
    byte_at_store 8 _ (by decide : 4 < 8), byte_at_store 8 _ (by decide : 5 < 8),
    byte_at_store 8 _ (by decide : 6 < 8), byte_at_store 8 _ (by decide : 7 < 8)]
  omega

theorem fread_2_cons (a b : Byte) (rest : List Byte) (pos : Nat) (eof : Bool) :
    fread_2 ⟨a :: b :: rest, pos, eof⟩
      = .ok (a.val * 256 + b.val, ⟨rest, pos + 2, eof⟩) := by
  rw [fread_2_ok]; simp [fread, be_value, byte_at, List.range_succ]

theorem fread_3_cons (a b c : Byte) (rest : List Byte) (pos : Nat) (eof : Bool) :
    fread_3 ⟨a :: b :: c :: rest, pos, eof⟩
      = .ok (a.val * 65536 + b.val * 256 + c.val, ⟨rest, pos + 3, eof⟩) := by
  rw [fread_3_ok]; simp [fread, be_value, byte_at, List.range_succ]; omega

theorem fread_4_cons (a b c d : Byte) (rest : List Byte) (pos : Nat) (eof : Bool) :
    fread_4 ⟨a :: b :: c :: d :: rest, pos, eof⟩
      = .ok (a.val * 16777216 + b.val * 65536 + c.val * 256 + d.val,
          ⟨rest, pos + 4, eof⟩) := by
  rw [fread_4_ok]; simp [fread, be_value, byte_at, List.range_succ]; omega

/-! ## Header claims -/

theorem header_flags (fl : Byte) :
    decide (fl.val &&& (1 <<< FLV_HEADER_AUDIO_BIT) ≠ 0) = fl.val.testBit 2 ∧
    decide (fl.val &&& (1 <<< FLV_HEADER_VIDEO_BIT) ≠ 0) = fl.val.testBit 0 := by
  revert fl; decide!

/-- C1: on every input of at least nine bytes that starts with 46 4C 56,
`flv_read_header` succeeds having consumed exactly nine bytes, and reports version =
byte 3, has_audio = bit 2 of byte 4, has_video = bit 0 of byte 4 and header_size = the
big-endian 32-bit value of bytes 5..8; the bytes 46 4C 56 01 05 00 00 00 09 give
version 1, audio and video present, header_size 9. -/
theorem C1_flv_read_header_decodes (v fl o0 o1 o2 o3 : Byte) (tail : List Byte)
    (pos : Nat) (eof : Bool) :
    flv_read_header ⟨0x46 :: 0x4C :: 0x56 :: v :: fl :: o0 :: o1 :: o2 :: o3 :: tail, pos, eof⟩
      = .ok ({ version := v.val,
               has_audio := fl.val.testBit 2,
               has_video := fl.val.testBit 0,
               header_size := o0.val * 2 ^ 24 + o1.val * 2 ^ 16 + o2.val * 2 ^ 8 + o3.val },
             ⟨tail, pos + 9, eof⟩)
    ∧ flv_read_header (fopen [0x46, 0x4C, 0x56, 0x01, 0x05, 0x00, 0x00, 0x00, 0x09])
      = .ok ({ version := 1, has_audio := true, has_video := true, header_size := 9 },
             ⟨[], 9, false⟩) := by
  refine ⟨?_, by decide⟩
  have hfl := header_flags fl
  have h0 := o0.isLt
  have h1 := o1.isLt
  have h2 := o2.isLt
  have h3 := o3.isLt
  have hr : List.range flv_signature.length = [0, 1, 2] := by decide
  have hm : (o0.val * 16777216 + o1.val * 65536 + o2.val * 256 + o3.val) % 4294967296
      = o0.val * 16777216 + o1.val * 65536 + o2.val * 256 + o3.val :=
    Nat.mod_eq_of_lt (by omega)
  simp only [flv_read_header, fread, flv_print_header, store, init_flv_header_t, byte_at, hr]
  simp [be32_eq, hfl.1, hfl.2, h1, h2, h3, hm, flv_signature]

theorem fread_item_no_error (k : Nat) (hk : 0 < k) (f : FILE) :
    (!(fread k 1 f).2.2.eof && decide ((fread k 1 f).2.1 ≠ 1)) = false := by
  have h := check_fread_item k hk f
  unfold check_read_error at h
  by_cases hc : (fread k 1 f).2.2.eof = true
  · simp [hc]
  · simp only [Bool.not_eq_true] at hc
    have hk0 : k ≠ 0 := by omega
    by_cases hl : f.rest.length < k
    · simp [fread, hk0, hl] at hc
    · have : min k f.rest.length = k := by omega
      simp [fread, hk0, this, Nat.div_self hk]

theorem signature_check_fails (rest : List Byte) (h : rest.take 3 ≠ flv_signature) :
    (List.range flv_signature.length).all
      (fun i => decide ((store init_flv_header_t (rest.take 9)).getD i 0
        = flv_signature.getD i 0)) = false := by
  have hr : List.range flv_signature.length = [0, 1, 2] := by decide
  rw [hr]
  rcases rest with _ | ⟨a, _ | ⟨b, _ | ⟨c, t⟩⟩⟩
  · decide
  · simp [store, init_flv_header_t, flv_signature]
  · simp [store, init_flv_header_t, flv_signature]
  · simp [flv_signature] at h
    simp [store, init_flv_header_t, flv_signature]
    exact h

/-- C2: whenever the first three bytes of the input are not exactly 46 4C 56 (the input
may be shorter than three bytes), `flv_read_header` stops the process on the failed
signature assertion after at most nine bytes were read, and `flv_parser_run` ends there:
it never calls `flv_read_tag`, reads nothing further and produces no tag. -/
theorem C2_bad_signature_aborts (f : FILE) (h : f.rest.take 3 ≠ flv_signature) :
    ∃ f1, flv_read_header f = .error (Fatal.abort, f1)
      ∧ f1.pos ≤ f.pos + 9
      ∧ flv_parser_run f
        = { tags := [], final := f1, outcome := Outcome.stopped Fatal.abort } := by
  have key : flv_read_header f = .error (Fatal.abort, (fread 9 1 f).2.2) := by
    unfold flv_read_header
    simp only [fread_item_no_error 9 (by decide) f, fread_item_got 9 (by decide) f,
      signature_check_fails f.rest h]
    simp
  refine ⟨(fread 9 1 f).2.2, key, ?_, ?_⟩
  · rw [fread_state]; simp
  · simp [flv_parser_run, key]

/-- C2 at the thirteen-byte input that starts with 46 4C 58 and at the two-byte input
46 4C. -/
theorem C2_bad_signature_aborts_witness :
    ((fopen [0x46, 0x4C, 0x58, 1, 5, 0, 0, 0, 9, 0, 0, 0, 0]).rest.take 3 ≠ flv_signature
      ∧ ∃ f1, flv_read_header (fopen [0x46, 0x4C, 0x58, 1, 5, 0, 0, 0, 9, 0, 0, 0, 0])
          = .error (Fatal.abort, f1)
        ∧ f1.pos ≤ (fopen [0x46, 0x4C, 0x58, 1, 5, 0, 0, 0, 9, 0, 0, 0, 0]).pos + 9
        ∧ flv_parser_run (fopen [0x46, 0x4C, 0x58, 1, 5, 0, 0, 0, 9, 0, 0, 0, 0])
          = { tags := [], final := f1, outcome := Outcome.stopped Fatal.abort })
    ∧ ((fopen [0x46, 0x4C]).rest.take 3 ≠ flv_signature
      ∧ ∃ f1, flv_read_header (fopen [0x46, 0x4C]) = .error (Fatal.abort, f1)
        ∧ f1.pos ≤ (fopen [0x46, 0x4C]).pos + 9
        ∧ flv_parser_run (fopen [0x46, 0x4C])
          = { tags := [], final := f1, outcome := Outcome.stopped Fatal.abort }) :=
  ⟨⟨by decide,
    C2_bad_signature_aborts (fopen [0x46, 0x4C, 0x58, 1, 5, 0, 0, 0, 9, 0, 0, 0, 0])
      (by decide)⟩,
   ⟨by decide, C2_bad_signature_aborts (fopen [0x46, 0x4C]) (by decide)⟩⟩

/-! ## Tag header claims -/

theorem and_mask_mod (x m : Nat) (hm : m < 256) : (x &&& m) % 256 = x &&& m :=
  Nat.mod_eq_of_lt (Nat.lt_of_le_of_lt Nat.and_le_right hm)

/-- The tag header of a complete 15-byte tag prefix, in closed form. -/
theorem flv_read_tag_header_cons (p0 p1 p2 p3 b0 b1 b2 b3 b4 b5 b6 b7 b8 b9 b10 : Byte)
    (tail : List Byte) (pos : Nat) (eof : Bool) :
    flv_read_tag_header
        ⟨p0 :: p1 :: p2 :: p3 :: b0 :: b1 :: b2 :: b3 :: b4 :: b5 :: b6 :: b7 :: b8 :: b9 ::
          b10 :: tail, pos, eof⟩
      = .ok (some { filter := b0.val &&& 16,
                    tag_type := b0.val &&& 0x1F,
                    data_size := b1.val * 65536 + b2.val * 256 + b3.val,
                    timestamp := b4.val * 65536 + b5.val * 256 + b6.val,
                    timestamp_ext := b7.val,
                    stream_id := b8.val * 65536 + b9.val * 256 + b10.val,
                    data := tag_data.null }, ⟨tail, pos + 15, eof⟩) := by
  simp [flv_read_tag_header, fread_4_cons, fread_1_cons, fread_3_cons, bind, Except.bind,
    pure, Except.pure, and_mask_mod]

/-- The `switch` of `flv_read_tag` only fills the `data` field of the tag. -/
theorem flv_read_tag_keeps_header (f f1 f2 : FILE) (t t2 : flv_tag)
    (hh : flv_read_tag_header f = .ok (some t, f1))
    (h : flv_read_tag f = .ok (some t2, f2)) :
    t2.filter = t.filter ∧ t2.tag_type = t.tag_type ∧ t2.data_size = t.data_size ∧
      t2.timestamp = t.timestamp ∧ t2.timestamp_ext = t.timestamp_ext ∧
      t2.stream_id = t.stream_id := by
  unfold flv_read_tag at h
  simp only [hh, bind, Except.bind] at h
  split_ifs at h
  · cases hd : read_audio_tag t.data_size f1 with
    | error e => simp [hd] at h
    | ok r =>
      simp only [hd, pure, Except.pure, Except.ok.injEq, Prod.mk.injEq, Option.some.injEq] at h
      rw [← h.1]; simp
  · cases hd : read_video_tag t.data_size f1 with
    | error e => simp [hd] at h
    | ok r =>
      simp only [hd, pure, Except.pure, Except.ok.injEq, Prod.mk.injEq, Option.some.injEq] at h
      rw [← h.1]; simp
  · cases hd : read_scriptdata_tag f1 with
    | error e => simp [hd] at h
    | ok r =>
      simp only [hd, pure, Except.pure, Except.ok.injEq, Prod.mk.injEq, Option.some.injEq] at h
      rw [← h.1]; simp
  · simp [die] at h

/-- C3: at a tag boundary followed by at least 15 bytes (previous tag size `p0..p3`,
then `b0..b10`), the tag header is decoded as tag_type = b0 & 0x1F, payload_size =
b1*65536 + b2*256 + b3, timestamp = b4*65536 + b5*256 + b6, timestamp_ext = b7,
stream_id = b8*65536 + b9*256 + b10, exactly 15 bytes being consumed; each 24-bit
field is below 2^24; the same record is decoded whatever the four bytes of the previous
tag size are; and every tag that `flv_read_tag` returns there carries these fields. -/
theorem C3_tag_header_fields (p0 p1 p2 p3 b0 b1 b2 b3 b4 b5 b6 b7 b8 b9 b10 : Byte)
    (tail : List Byte) (pos : Nat) (eof : Bool) :
    ∃ t : flv_tag,
      flv_read_tag_header
          ⟨p0 :: p1 :: p2 :: p3 :: b0 :: b1 :: b2 :: b3 :: b4 :: b5 :: b6 :: b7 :: b8 :: b9 ::
            b10 :: tail, pos, eof⟩ = .ok (some t, ⟨tail, pos + 15, eof⟩)
      ∧ t.tag_type = b0.val &&& 0x1F
      ∧ t.data_size = b1.val * 65536 + b2.val * 256 + b3.val
      ∧ t.timestamp = b4.val * 65536 + b5.val * 256 + b6.val
      ∧ t.timestamp_ext = b7.val
      ∧ t.stream_id = b8.val * 65536 + b9.val * 256 + b10.val
      ∧ t.data_size < 2 ^ 24 ∧ t.timestamp < 2 ^ 24 ∧ t.stream_id < 2 ^ 24
      ∧ (∀ q0 q1 q2 q3 : Byte,
          flv_read_tag_header
            ⟨q0 :: q1 :: q2 :: q3 :: b0 :: b1 :: b2 :: b3 :: b4 :: b5 :: b6 :: b7 :: b8 :: b9 ::
              b10 :: tail, pos, eof⟩ = .ok (some t, ⟨tail, pos + 15, eof⟩))
      ∧ (∀ (t2 : flv_tag) (f2 : FILE),
          flv_read_tag
            ⟨p0 :: p1 :: p2 :: p3 :: b0 :: b1 :: b2 :: b3 :: b4 :: b5 :: b6 :: b7 :: b8 :: b9 ::
              b10 :: tail, pos, eof⟩ = .ok (some t2, f2) →
          t2.tag_type = t.tag_type ∧ t2.data_size = t.data_size ∧
            t2.timestamp = t.timestamp ∧ t2.timestamp_ext = t.timestamp_ext ∧
            t2.stream_id = t.stream_id) := by
  have hh := flv_read_tag_header_cons p0 p1 p2 p3 b0 b1 b2 b3 b4 b5 b6 b7 b8 b9 b10 tail pos eof
  refine ⟨_, hh, rfl, rfl, rfl, rfl, rfl, ?_, ?_, ?_, ?_, ?_⟩
  · show b1.val * 65536 + b2.val * 256 + b3.val < 2 ^ 24
    omega
  · show b4.val * 65536 + b5.val * 256 + b6.val < 2 ^ 24
    omega
  · show b8.val * 65536 + b9.val * 256 + b10.val < 2 ^ 24
    omega
  · intro q0 q1 q2 q3
    exact flv_read_tag_header_cons q0 q1 q2 q3 b0 b1 b2 b3 b4 b5 b6 b7 b8 b9 b10 tail pos eof
  · intro t2 f2 h
    have := flv_read_tag_keeps_header _ _ _ _ _ hh h
    exact ⟨this.2.1, this.2.2.1, this.2.2.2.1, this.2.2.2.2.1, this.2.2.2.2.2⟩

/-- C3 at an audio tag header with payload_size 2, timestamp 7, extension 1 and stream
id 3. -/
theorem C3_tag_header_fields_witness :
    ∃ t : flv_tag,
      flv_read_tag_header
          ⟨[0, 0, 0, 0, 8, 0, 0, 2, 0, 0, 7, 1, 0, 0, 3, 0xAF, 1], 0, false⟩
        = .ok (some t, ⟨[0xAF, 1], 0 + 15, false⟩)
      ∧ t.tag_type = 8 ∧ t.data_size = 2 ∧ t.timestamp = 7 ∧ t.timestamp_ext = 1
      ∧ t.stream_id = 3
      ∧ (∀ (t2 : flv_tag) (f2 : FILE),
          flv_read_tag ⟨[0, 0, 0, 0, 8, 0, 0, 2, 0, 0, 7, 1, 0, 0, 3, 0xAF, 1], 0, false⟩
            = .ok (some t2, f2) → t2.data_size = t.data_size) :=
  let ⟨t, h, h1, h2, h3, h4, h5, _, _, _, _, h6⟩ :=
    C3_tag_header_fields 0 0 0 0 8 0 0 2 0 0 7 1 0 0 3 [0xAF, 1] 0 false
  ⟨t, h, h1, h2, h3, h4, h5, fun t2 f2 h => (h6 t2 f2 h).2.1⟩

/-- The tag header whenever the leading byte is present, the ten bytes after it being
read as far as they exist (missing bytes count as zero). -/
theorem flv_read_tag_header_some (p0 p1 p2 p3 b0 : Byte) (tail : List Byte) (pos : Nat)
    (eof : Bool) :
    flv_read_tag_header ⟨p0 :: p1 :: p2 :: p3 :: b0 :: tail, pos, eof⟩
      = .ok (some { filter := b0.val &&& 16,
                    tag_type := b0.val &&& 0x1F,
                    data_size := be_value 3 tail,
                    timestamp := be_value 3 (tail.drop 3),
                    timestamp_ext := byte_at tail 6,
                    stream_id := be_value 3 (tail.drop 7),
                    data := tag_data.null },
             ⟨tail.drop 10, pos + 5 + min 10 tail.length,
              eof || decide (tail.length < 10)⟩) := by
  simp only [flv_read_tag_header, fread_4_cons, fread_1_cons, fread_3_ok, fread_1_ok,
    fread_state, bind, Except.bind, pure, Except.pure]
  simp [and_mask_mod]
  refine ⟨by simp [byte_at, List.getD_eq_getElem?_getD], by omega, ?_⟩
  cases eof
  · simp only [Bool.false_or, ← Bool.decide_or]
    congr 1
    apply propext
    omega
  · simp

/-- C4: whenever the leading byte `b0` of a tag is present, `flv_read_tag` reads the tag
header (it yields a record with tag_type = b0 & 0x1F and no payload yet) and then does
exactly one thing according to tag_type: 8 runs `read_audio_tag`, 9 runs
`read_video_tag`, 18 runs `read_scriptdata_tag`, each from the stream state right after
the header, and every other value stops the process through `die` (`exit(-1)`) in that
very state, no tag being returned and no payload decoder having consumed anything; the
loop of `flv_parser_run` ends there. -/
theorem C4_dispatch_on_tag_type (p0 p1 p2 p3 b0 : Byte) (tail : List Byte) (pos : Nat)
    (eof : Bool) :
    ∃ (t : flv_tag) (f1 : FILE),
      flv_read_tag_header ⟨p0 :: p1 :: p2 :: p3 :: b0 :: tail, pos, eof⟩ = .ok (some t, f1)
      ∧ t.tag_type = b0.val &&& 0x1F
      ∧ t.data = tag_data.null
      ∧ f1.pos ≤ pos + 15
      ∧ flv_read_tag ⟨p0 :: p1 :: p2 :: p3 :: b0 :: tail, pos, eof⟩ =
          (if b0.val &&& 0x1F = 8 then
            (read_audio_tag t.data_size f1).map
              (fun r => (some { t with data := tag_data.audio r.1 }, r.2))
          else if b0.val &&& 0x1F = 9 then
            (read_video_tag t.data_size f1).map
              (fun r => (some { t with data := tag_data.video r.1 }, r.2))
          else if b0.val &&& 0x1F = 18 then
            (read_scriptdata_tag f1).map
              (fun r => (some { t with data := tag_data.script r.1 }, r.2))
          else .error (Fatal.exit (-1), f1))
      ∧ (b0.val &&& 0x1F ≠ 8 → b0.val &&& 0x1F ≠ 9 → b0.val &&& 0x1F ≠ 18 →
          ∀ fuel : Nat,
            tag_loop (fuel + 1) ⟨p0 :: p1 :: p2 :: p3 :: b0 :: tail, pos, eof⟩
              = { tags := [], final := f1,
                  outcome := Outcome.stopped (Fatal.exit (-1)) }) := by
  have hh := flv_read_tag_header_some p0 p1 p2 p3 b0 tail pos eof
  have hrt : flv_read_tag ⟨p0 :: p1 :: p2 :: p3 :: b0 :: tail, pos, eof⟩ =
      (if b0.val &&& 0x1F = 8 then
        (read_audio_tag (be_value 3 tail)
            ⟨tail.drop 10, pos + 5 + min 10 tail.length, eof || decide (tail.length < 10)⟩).map
          (fun r => (some { filter := b0.val &&& 16, tag_type := b0.val &&& 0x1F,
                            data_size := be_value 3 tail,
                            timestamp := be_value 3 (tail.drop 3),
                            timestamp_ext := byte_at tail 6,
                            stream_id := be_value 3 (tail.drop 7),
                            data := tag_data.audio r.1 }, r.2))
      else if b0.val &&& 0x1F = 9 then
        (read_video_tag (be_value 3 tail)
            ⟨tail.drop 10, pos + 5 + min 10 tail.length, eof || decide (tail.length < 10)⟩).map
          (fun r => (some { filter := b0.val &&& 16, tag_type := b0.val &&& 0x1F,
                            data_size := be_value 3 tail,
                            timestamp := be_value 3 (tail.drop 3),
                            timestamp_ext := byte_at tail 6,
                            stream_id := be_value 3 (tail.drop 7),
                            data := tag_data.video r.1 }, r.2))
      else if b0.val &&& 0x1F = 18 then
        (read_scriptdata_tag
            ⟨tail.drop 10, pos + 5 + min 10 tail.length, eof || decide (tail.length < 10)⟩).map
          (fun r => (some { filter := b0.val &&& 16, tag_type := b0.val &&& 0x1F,
                            data_size := be_value 3 tail,
                            timestamp := be_value 3 (tail.drop 3),
                            timestamp_ext := byte_at tail 6,
                            stream_id := be_value 3 (tail.drop 7),
                            data := tag_data.script r.1 }, r.2))
      else .error (Fatal.exit (-1),
        ⟨tail.drop 10, pos + 5 + min 10 tail.length, eof || decide (tail.length < 10)⟩)) := by
    unfold flv_read_tag
    simp only [hh, bind, Except.bind, TAGTYPE_AUDIODATA, TAGTYPE_VIDEODATA,
      TAGTYPE_SCRIPTDATAOBJECT]
    split_ifs
    · cases read_audio_tag (be_value 3 tail) _ <;> rfl
    · cases read_video_tag (be_value 3 tail) _ <;> rfl
    · cases read_scriptdata_tag _ <;> rfl
    · rfl
  refine ⟨_, _, hh, rfl, rfl, ?_, hrt, ?_⟩
  · show pos + 5 + min 10 tail.length ≤ pos + 15
    omega
  · intro h8 h9 h18 fuel
    rw [tag_loop, hrt, if_neg h8, if_neg h9, if_neg h18]

/-- C4 at a tag whose leading byte is 0x0A: the scan stops with `exit(-1)`. -/
theorem C4_dispatch_on_tag_type_witness :
    (0x0A : Byte).val &&& 0x1F ≠ 8 ∧ (0x0A : Byte).val &&& 0x1F ≠ 9
    ∧ (0x0A : Byte).val &&& 0x1F ≠ 18
    ∧ ∃ f1 : FILE, ∀ fuel : Nat,
        tag_loop (fuel + 1) ⟨[0, 0, 0, 0, 0x0A, 0, 0, 1, 0, 0, 0, 0, 0, 0, 0, 7], 9, false⟩
          = { tags := [], final := f1, outcome := Outcome.stopped (Fatal.exit (-1)) } :=
  let ⟨_, f1, _, _, _, _, _, h⟩ :=
    C4_dispatch_on_tag_type 0 0 0 0 0x0A [0, 0, 1, 0, 0, 0, 0, 0, 0, 0, 7] 9 false
  ⟨by decide, by decide, by decide, f1, h (by decide) (by decide) (by decide)⟩

/-! ## Every reader only moves forward -/

theorem fread_rest_le (size nmemb : Nat) (f : FILE) :
    (fread size nmemb f).2.2.rest.length ≤ f.rest.length := by
  rw [fread_rest_length]; omega

theorem fread_1_rest (ptr : Byte) (f f1 : FILE) (r : Byte × Nat)
    (h : fread_1 ptr f = .ok (r, f1)) : f1.rest.length ≤ f.rest.length := by
  rw [fread_1_ok] at h
  simp only [Except.ok.injEq, Prod.mk.injEq] at h
  rw [← h.2]; exact fread_rest_le _ _ _

theorem read_audio_tag_rest (data_size : Nat) (f f1 : FILE) (r : Option audio_tag)
    (h : read_audio_tag data_size f = .ok (r, f1)) : f1.rest.length ≤ f.rest.length := by
  unfold read_audio_tag at h
  simp only [fread_1_ok, bind, Except.bind, pure, Except.pure] at h
  split_ifs at h
  all_goals
    (simp only [Except.ok.injEq, Prod.mk.injEq] at h
     rw [← h.2]
     repeat (first | exact fread_rest_le _ _ _ | refine le_trans (fread_rest_le _ _ _) ?_))

theorem read_avc_video_tag_rest (data_size : Nat) (f f1 : FILE) (r : Option avc_video_tag)
    (h : read_avc_video_tag data_size f = .ok (r, f1)) : f1.rest.length ≤ f.rest.length := by
  unfold read_avc_video_tag at h
  simp only [fread_1_ok, fread_3_ok, fread_4_ok, bind, Except.bind, pure, Except.pure] at h
  by_cases hp : (f.rest.headD 0).val = 1
  · rw [if_pos hp] at h
    dsimp only at h
    rw [if_pos hp] at h
    split_ifs at h
    all_goals
      (simp only [Except.ok.injEq, Prod.mk.injEq] at h
       rw [← h.2]
       repeat (first | exact fread_rest_le _ _ _ | refine le_trans (fread_rest_le _ _ _) ?_))
  · rw [if_neg hp] at h
    dsimp only at h
    rw [if_neg hp] at h
    split_ifs at h
    all_goals
      (simp only [Except.ok.injEq, Prod.mk.injEq] at h
       rw [← h.2]
       repeat (first | exact fread_rest_le _ _ _ | refine le_trans (fread_rest_le _ _ _) ?_))

theorem read_video_tag_rest (data_size : Nat) (f f1 : FILE) (r : Option video_tag)
    (h : read_video_tag data_size f = .ok (r, f1)) : f1.rest.length ≤ f.rest.length := by
  unfold read_video_tag at h
  simp only [fread_1_ok, bind, Except.bind, pure, Except.pure] at h
  split_ifs at h
  · cases ha : read_avc_video_tag (sub_u32 data_size 1) (fread 1 1 f).2.2 with
    | error e => simp [ha] at h
    | ok v =>
      have := read_avc_video_tag_rest _ _ v.2 v.1 ha
      simp only [ha, Except.ok.injEq, Prod.mk.injEq] at h
      rw [← h.2]
      exact le_trans this (fread_rest_le _ _ _)
  all_goals
    (simp only [Except.ok.injEq, Prod.mk.injEq] at h
     rw [← h.2]
     repeat (first | exact fread_rest_le _ _ _ | refine le_trans (fread_rest_le _ _ _) ?_))

theorem read_properties_rest (n : Nat) :
    ∀ (type : Byte) (f f1 : FILE) (r : Bool × List property),
      read_properties n type f = .ok (r, f1) → f1.rest.length ≤ f.rest.length := by
  induction n with
  | zero =>
    intro type f f1 r h
    simp only [read_properties, pure, Except.pure, Except.ok.injEq, Prod.mk.injEq] at h
    rw [← h.2]
  | succ n ih =>
    intro type f f1 r h
    unfold read_properties at h
    simp only [fread_1_ok, fread_2_ok, fread_double_ok, bind, Except.bind, pure,
      Except.pure] at h
    split_ifs at h
    · split at h
      · simp at h
      · rename_i v hv
        have := ih _ _ _ _ hv
        simp only [Except.ok.injEq, Prod.mk.injEq] at h
        rw [← h.2]
        refine le_trans this ?_
        repeat (first | exact fread_rest_le _ _ _ | refine le_trans (fread_rest_le _ _ _) ?_)
    · split at h
      · simp at h
      · rename_i v hv
        have := ih _ _ _ _ hv
        simp only [Except.ok.injEq, Prod.mk.injEq] at h
        rw [← h.2]
        refine le_trans this ?_
        repeat (first | exact fread_rest_le _ _ _ | refine le_trans (fread_rest_le _ _ _) ?_)
    · simp only [Except.ok.injEq, Prod.mk.injEq] at h
      rw [← h.2]
      repeat (first | exact fread_rest_le _ _ _ | refine le_trans (fread_rest_le _ _ _) ?_)
    · split at h
      · simp at h
      · rename_i v hv
        have := ih _ _ _ _ hv
        simp only [Except.ok.injEq, Prod.mk.injEq] at h
        rw [← h.2]
        refine le_trans this ?_
        repeat (first | exact fread_rest_le _ _ _ | refine le_trans (fread_rest_le _ _ _) ?_)
    · have := ih _ _ _ _ h
      refine le_trans this ?_
      repeat (first | exact fread_rest_le _ _ _ | refine le_trans (fread_rest_le _ _ _) ?_)

theorem read_scriptdata_tag_rest (f f1 : FILE) (r : List property)
    (h : read_scriptdata_tag f = .ok (r, f1)) : f1.rest.length ≤ f.rest.length := by
  unfold read_scriptdata_tag at h
  simp only [fread_1_ok, fread_2_ok, fread_4_ok, bind, Except.bind, pure, Except.pure] at h
  split_ifs at h
  · simp only [Except.ok.injEq, Prod.mk.injEq] at h
    rw [← h.2]
    repeat (first | exact fread_rest_le _ _ _ | refine le_trans (fread_rest_le _ _ _) ?_)
  · split at h
    · simp at h
    · rename_i v hv
      have := read_properties_rest _ _ _ _ _ hv
      split_ifs at h
      all_goals
        (simp only [Except.ok.injEq, Prod.mk.injEq] at h
         rw [← h.2]
         refine le_trans ?_ (le_trans this ?_)
         · first | exact le_rfl | exact fread_rest_le _ _ _
         · repeat (first | exact fread_rest_le _ _ _ | refine le_trans (fread_rest_le _ _ _) ?_))

/-- A tag header that yields a record has consumed the previous tag size and the leading
byte at least. -/
theorem flv_read_tag_header_rest (f f1 : FILE) (t : flv_tag)
    (h : flv_read_tag_header f = .ok (some t, f1)) : f1.rest.length + 5 ≤ f.rest.length := by
  unfold flv_read_tag_header at h
  simp only [fread_1_ok, fread_3_ok, fread_4_ok, bind, Except.bind, pure, Except.pure] at h
  split_ifs at h with hc
  · simp at h
  · simp only [Except.ok.injEq, Prod.mk.injEq] at h
    rw [← h.2]
    simp only [fread_rest_length] at hc ⊢
    omega

theorem flv_read_tag_rest (f f1 : FILE) (t : flv_tag)
    (h : flv_read_tag f = .ok (some t, f1)) : f1.rest.length + 5 ≤ f.rest.length := by
  unfold flv_read_tag at h
  simp only [bind, Except.bind] at h
  split at h
  · simp at h
  · rename_i v hv
    rcases v with ⟨_ | t0, g⟩
    · simp [pure, Except.pure] at h
    · have hh := flv_read_tag_header_rest _ _ _ hv
      dsimp only at h
      split_ifs at h
      · split at h
        · simp at h
        · rename_i w hw
          have := read_audio_tag_rest _ _ _ _ hw
          simp only [pure, Except.pure, Except.ok.injEq, Prod.mk.injEq] at h
          rw [← h.2]; omega
      · split at h
        · simp at h
        · rename_i w hw
          have := read_video_tag_rest _ _ _ _ hw
          simp only [pure, Except.pure, Except.ok.injEq, Prod.mk.injEq] at h
          rw [← h.2]; omega
      · split at h
        · simp at h
        · rename_i w hw
          have := read_scriptdata_tag_rest _ _ _ hw
          simp only [pure, Except.pure, Except.ok.injEq, Prod.mk.injEq] at h
          rw [← h.2]; omega
      · simp [die] at h

theorem tags_read_rest {f g : FILE} {ts : List flv_tag} (h : tags_read f ts g) :
    5 * ts.length + g.rest.length ≤ f.rest.length := by
  induction h with
  | nil f => simp
  | cons hr _ ih =>
    have := flv_read_tag_rest _ _ _ hr
    simp only [List.length_cons]
    omega

/-- Once the tags `ts` were read, each of them freed without a fault, and the next call
returns `NULL`, the loop returns 0 with exactly those tags, whatever budget above their
number it was given. -/
theorem tag_loop_of_tags_read {f g g1 : FILE} {ts : List flv_tag} (h : tags_read f ts g)
    (hfree : ∀ t ∈ ts, flv_free_tag t = .ok ())
    (hend : flv_read_tag g = .ok (none, g1)) :
    ∀ fuel, ts.length < fuel →
      tag_loop fuel f = { tags := ts, final := g1, outcome := Outcome.returned 0 } := by
  induction h with
  | nil f =>
    intro fuel hf
    obtain ⟨n, rfl⟩ : ∃ n, fuel = n + 1 := ⟨fuel - 1, by simp at hf; omega⟩
    simp [tag_loop, hend]
  | cons hr _ ih =>
    intro fuel hf
    obtain ⟨n, rfl⟩ : ∃ n, fuel = n + 1 := ⟨fuel - 1, by simp at hf; omega⟩
    simp only [List.length_cons, Nat.add_lt_add_iff_right] at hf
    have h1 := hfree _ (List.mem_cons_self _ _)
    have h2 := ih (fun t ht => hfree t (List.mem_cons_of_mem _ ht)) hend n hf
    simp [tag_loop, hr, h1, h2]

theorem flv_read_tag_at_end (p0 p1 p2 p3 : Byte) (pos : Nat) (eof : Bool) :
    flv_read_tag ⟨[p0, p1, p2, p3], pos, eof⟩ = .ok (none, ⟨[], pos + 4, true⟩) := by
  simp [flv_read_tag, flv_read_tag_header, fread_4_cons, fread_1_nil, bind, Except.bind,
    pure, Except.pure]

/-- C5, the code evaluated where the claim fails.  With exactly the four bytes of a
previous tag size left, `flv_read_tag` returns `NULL` without stopping the process, for
every value of those bytes.  But `flv_parser_run` does not return 0 on every stream that
ends there: on the file made of the header, one video tag of payload_size 2 with first
payload byte 0x57 (frame type 5, codec id 7) and a last previous tag size, the tag is
read, leaving exactly those four bytes; `read_video_tag` has left its `data` at `NULL`,
`flv_free_tag` reads `avc_video_tag->data` through it, and the run is killed there.  On
the same file with an AAC audio tag in place of the video tag the run returns 0. -/
theorem C5_run_killed_in_flv_free_tag :
    (∀ (p0 p1 p2 p3 : Byte) (pos : Nat) (eof : Bool),
      flv_read_tag ⟨[p0, p1, p2, p3], pos, eof⟩ = .ok (none, ⟨[], pos + 4, true⟩))
    ∧ flv_read_header (fopen [0x46, 0x4C, 0x56, 1, 5, 0, 0, 0, 9,
        0, 0, 0, 0, 9, 0, 0, 2, 0, 0, 0, 0, 0, 0, 0, 0x57, 0, 0, 0, 0, 13])
      = .ok ({ version := 1, has_audio := true, has_video := true, header_size := 9 },
          ⟨[0, 0, 0, 0, 9, 0, 0, 2, 0, 0, 0, 0, 0, 0, 0, 0x57, 0, 0, 0, 0, 13], 9, false⟩)
    ∧ flv_read_tag
        ⟨[0, 0, 0, 0, 9, 0, 0, 2, 0, 0, 0, 0, 0, 0, 0, 0x57, 0, 0, 0, 0, 13], 9, false⟩
      = .ok (some { filter := 0, tag_type := 9, data_size := 2, timestamp := 0,
                    timestamp_ext := 0, stream_id := 0,
                    data := tag_data.video
                      (some { frame_type := 5, codec_id := 7, data := video_data.null,
                              seek := some 0 }) },
             ⟨[0, 0, 0, 13], 26, false⟩)
    ∧ (∀ (t : flv_tag) (m : Option Byte),
        flv_free_tag { t with
          tag_type := 9,
          data := tag_data.video
            (some { frame_type := 5, codec_id := 7, data := video_data.null, seek := m }) }
          = .error Fatal.killed)
    ∧ flv_parser_run (fopen [0x46, 0x4C, 0x56, 1, 5, 0, 0, 0, 9,
        0, 0, 0, 0, 9, 0, 0, 2, 0, 0, 0, 0, 0, 0, 0, 0x57, 0, 0, 0, 0, 13])
      = ⟨[{ filter := 0, tag_type := 9, data_size := 2, timestamp := 0, timestamp_ext := 0,
            stream_id := 0,
            data := tag_data.video
              (some { frame_type := 5, codec_id := 7, data := video_data.null,
                      seek := some 0 }) }],
         ⟨[0, 0, 0, 13], 26, false⟩, Outcome.stopped Fatal.killed⟩
    ∧ flv_parser_run (fopen [0x46, 0x4C, 0x56, 1, 5, 0, 0, 0, 9,
        0, 0, 0, 0, 8, 0, 0, 2, 0, 0, 0, 0, 0, 0, 0, 0xAF, 1, 0, 0, 0, 13])
      = ⟨[{ filter := 0, tag_type := 8, data_size := 2, timestamp := 0, timestamp_ext := 0,
            stream_id := 0,
            data := tag_data.audio
              (some { sound_format := 10, sound_rate := 3, sound_size := 1,
                      sound_type := 1, data := [], aac_packet_type := some 1 }) }],
         ⟨[], 30, true⟩, Outcome.returned 0⟩ := by
  refine ⟨flv_read_tag_at_end, by decide, by decide, fun t m => rfl, by decide, by decide⟩

/-! ## The payload decoders return on every stream -/

theorem read_audio_tag_ok (data_size : Nat) (f : FILE) :
    ∃ r, read_audio_tag data_size f = .ok r := by
  unfold read_audio_tag
  simp only [fread_1_ok, bind, Except.bind, pure, Except.pure]
  split_ifs <;> exact ⟨_, rfl⟩

theorem read_avc_video_tag_ok (data_size : Nat) (f : FILE) :
    ∃ r, read_avc_video_tag data_size f = .ok r := by
  unfold read_avc_video_tag
  simp only [fread_1_ok, fread_3_ok, fread_4_ok, bind, Except.bind, pure, Except.pure]
  by_cases hp : (f.rest.headD 0).val = 1
  · rw [if_pos hp]
    dsimp only
    rw [if_pos hp]
    split_ifs <;> exact ⟨_, rfl⟩
  · rw [if_neg hp]
    dsimp only
    rw [if_neg hp]
    split_ifs <;> exact ⟨_, rfl⟩

theorem read_video_tag_ok (data_size : Nat) (f : FILE) :
    ∃ r, read_video_tag data_size f = .ok r := by
  unfold read_video_tag
  simp only [fread_1_ok, bind, Except.bind, pure, Except.pure]
  split_ifs
  · obtain ⟨r, hr⟩ := read_avc_video_tag_ok (sub_u32 data_size 1) (fread 1 1 f).2.2
    rw [hr]
    exact ⟨_, rfl⟩
  all_goals exact ⟨_, rfl⟩

theorem read_properties_ok (n : Nat) :
    ∀ (type : Byte) (f : FILE), ∃ r, read_properties n type f = .ok r := by
  induction n with
  | zero => intro type f; exact ⟨_, rfl⟩
  | succ n ih =>
    intro type f
    unfold read_properties
    simp only [fread_1_ok, fread_2_ok, fread_double_ok, bind, Except.bind, pure, Except.pure]
    split_ifs
    · obtain ⟨r, hr⟩ := ih
        (List.headD (fread 1 (be_value 2 f.rest) (fread 2 1 f).2.2).2.2.rest type)
        (fread 8 1 (fread 1 1 (fread 1 (be_value 2 f.rest) (fread 2 1 f).2.2).2.2).2.2).2.2
      rw [hr]; exact ⟨_, rfl⟩
    · obtain ⟨r, hr⟩ := ih
        (List.headD (fread 1 (be_value 2 f.rest) (fread 2 1 f).2.2).2.2.rest type)
        (fread 1 1 (fread 1 1 (fread 1 (be_value 2 f.rest) (fread 2 1 f).2.2).2.2).2.2).2.2
      rw [hr]; exact ⟨_, rfl⟩
    · exact ⟨_, rfl⟩
    · rename_i h1 h2 h3 h4
      obtain ⟨r, hr⟩ := ih
        (List.headD (fread 1 (be_value 2 f.rest) (fread 2 1 f).2.2).2.2.rest type)
        (fread 1
          (be_value 2 (fread 1 1 (fread 1 (be_value 2 f.rest) (fread 2 1 f).2.2).2.2).2.2.rest)
          (fread 2 1 (fread 1 1 (fread 1 (be_value 2 f.rest) (fread 2 1 f).2.2).2.2).2.2).2.2).2.2
      rw [hr]; exact ⟨_, rfl⟩
    · exact ih _ _

theorem read_scriptdata_tag_ok (f : FILE) : ∃ r, read_scriptdata_tag f = .ok r := by
  unfold read_scriptdata_tag
  simp only [fread_1_ok, fread_2_ok, fread_4_ok, bind, Except.bind, pure, Except.pure]
  split_ifs
  · exact ⟨_, rfl⟩
  · obtain ⟨r, hr⟩ := read_properties_ok
      (be_value 4 (fread 1 1 (fread 1 10 (fread 2 1 (fread 1 1 f).2.2).2.2).2.2).2.2.rest)
      (List.headD (fread 1 10 (fread 2 1 (fread 1 1 f).2.2).2.2).2.2.rest (f.rest.headD 0))
      (fread 4 1 (fread 1 1 (fread 1 10 (fread 2 1 (fread 1 1 f).2.2).2.2).2.2).2.2).2.2
    rw [hr]
    dsimp only
    split_ifs <;> exact ⟨_, rfl⟩

theorem flv_read_tag_header_ok (f : FILE) : ∃ r, flv_read_tag_header f = .ok r := by
  unfold flv_read_tag_header
  simp only [fread_1_ok, fread_3_ok, fread_4_ok, bind, Except.bind, pure, Except.pure]
  split_ifs <;> exact ⟨_, rfl⟩

/-! ## Audio payload claims -/

/-- The four bit fields of the first audio byte, as computed by `flv_get_bits`. -/
theorem audio_bit_fields (b : Byte) :
    flv_get_bits b.val 4 4 = b.val >>> 4
    ∧ flv_get_bits b.val 2 2 = (b.val >>> 2) &&& 3
    ∧ flv_get_bits b.val 1 1 = (b.val >>> 1) &&& 1
    ∧ flv_get_bits b.val 0 1 = b.val &&& 1
    ∧ b.val = 16 * flv_get_bits b.val 4 4 + 4 * flv_get_bits b.val 2 2
        + 2 * flv_get_bits b.val 1 1 + flv_get_bits b.val 0 1 := by
  revert b; decide!

/-- Closed form of `read_audio_tag`: on a finite stream `check_read_error` never fires,
so a tag is always returned. -/
theorem read_audio_tag_eq (data_size : Nat) (f : FILE) :
    read_audio_tag data_size f =
      if flv_get_bits (f.rest.headD 0).val 4 4 ≠ 10 then
        .ok (some { sound_format := flv_get_bits (f.rest.headD 0).val 4 4,
                    sound_rate := flv_get_bits (f.rest.headD 0).val 2 2,
                    sound_size := flv_get_bits (f.rest.headD 0).val 1 1,
                    sound_type := flv_get_bits (f.rest.headD 0).val 0 1,
                    data := (fread 1 (sub_size_t data_size 1) (fread 1 1 f).2.2).1,
                    aac_packet_type := none },
             (fread 1 (sub_size_t data_size 1) (fread 1 1 f).2.2).2.2)
      else
        .ok (some { sound_format := flv_get_bits (f.rest.headD 0).val 4 4,
                    sound_rate := flv_get_bits (f.rest.headD 0).val 2 2,
                    sound_size := flv_get_bits (f.rest.headD 0).val 1 1,
                    sound_type := flv_get_bits (f.rest.headD 0).val 0 1,
                    data := (fread 1 (sub_size_t data_size 2)
                      (fread 1 1 (fread 1 1 f).2.2).2.2).1,
                    aac_packet_type := some ((fread 1 1 f).2.2.rest.headD 0) },
             (fread 1 (sub_size_t data_size 2) (fread 1 1 (fread 1 1 f).2.2).2.2).2.2) := by
  unfold read_audio_tag
  simp only [fread_1_ok, bind, Except.bind, pure, Except.pure,
    check_fread_bytes _ _ (sub_size_t_to_int data_size 1 (by decide)),
    check_fread_bytes _ _ (sub_size_t_to_int data_size 2 (by decide)), if_true]

/-- A request for exactly the bytes `data` that are at the front of the stream. -/
theorem fread_bytes_exact (data tail : List Byte) (pos : Nat) (eof : Bool) (n : Nat)
    (hn : n = data.length) :
    fread 1 n ⟨data ++ tail, pos, eof⟩ = (data, n, ⟨tail, pos + n, eof⟩) := by
  subst hn
  unfold fread
  cases data with
  | nil => simp
  | cons a t => simp

theorem sub_size_t_eq (d k : Nat) (hk : k ≤ d) (hd : d < 2 ^ 64) : sub_size_t d k = d - k := by
  unfold sub_size_t
  have h1 : k % 2 ^ 64 = k := Nat.mod_eq_of_lt (by omega)
  rw [h1]
  have h2 : d + 2 ^ 64 - k = (d - k) + 2 ^ 64 := by omega
  rw [h2, Nat.add_mod_right]
  exact Nat.mod_eq_of_lt (by omega)

/-- C8: for every first payload byte `b`, `read_audio_tag` returns a tag with
sound_format = b >> 4, sound_rate = (b >> 2) & 3, sound_size = (b >> 1) & 1,
sound_type = b & 1, and the four fields partition the byte:
b = 16*sound_format + 4*sound_rate + 2*sound_size + sound_type.  The audio tag with type
byte 0x08, payload_size 2, timestamp 0, stream id 0 and payload `AF 01` decodes to
sound_format 10, sound_rate 3, sound_size 1, sound_type 1, aac_packet_type 1 and empty
raw data. -/
theorem C8_audio_first_byte (b : Byte) (tail : List Byte) (pos : Nat) (eof : Bool)
    (data_size : Nat) :
    (∃ (t : audio_tag) (f1 : FILE),
      read_audio_tag data_size ⟨b :: tail, pos, eof⟩ = .ok (some t, f1)
      ∧ t.sound_format = b.val >>> 4
      ∧ t.sound_rate = (b.val >>> 2) &&& 3
      ∧ t.sound_size = (b.val >>> 1) &&& 1
      ∧ t.sound_type = b.val &&& 1
      ∧ b.val = 16 * t.sound_format + 4 * t.sound_rate + 2 * t.sound_size + t.sound_type)
    ∧ flv_read_tag (fopen [0, 0, 0, 0, 0x08, 0, 0, 2, 0, 0, 0, 0, 0, 0, 0, 0xAF, 0x01])
      = .ok (some { filter := 0, tag_type := 8, data_size := 2, timestamp := 0,
                    timestamp_ext := 0, stream_id := 0,
                    data := tag_data.audio
                      (some { sound_format := 10, sound_rate := 3, sound_size := 1,
                              sound_type := 1, data := [], aac_packet_type := some 1 }) },
             ⟨[], 17, false⟩) := by
  refine ⟨?_, by decide⟩
  obtain ⟨h1, h2, h3, h4, h5⟩ := audio_bit_fields b
  rw [read_audio_tag_eq]
  split_ifs
  · exact ⟨_, _, rfl, h1, h2, h3, h4, h5⟩
  · exact ⟨_, _, rfl, h1, h2, h3, h4, h5⟩


/-- AAC audio with its payload present: one packet-type byte, then the raw data. -/
theorem read_audio_tag_aac_exact (b a : Byte) (raw tail : List Byte) (pos : Nat) (eof : Bool)
    (data_size : Nat) (hsize : data_size < 2 ^ 32) (hf : b.val >>> 4 = 10)
    (hd : 2 ≤ data_size) (hr : raw.length = data_size - 2) :
    read_audio_tag data_size ⟨b :: a :: (raw ++ tail), pos, eof⟩
      = .ok (some { sound_format := 10,
                    sound_rate := (b.val >>> 2) &&& 3,
                    sound_size := (b.val >>> 1) &&& 1,
                    sound_type := b.val &&& 1,
                    data := raw,
                    aac_packet_type := some a },
             ⟨tail, pos + data_size, eof⟩) := by
  obtain ⟨h1, h2, h3, h4, -⟩ := audio_bit_fields b
  have hlt : data_size < 2 ^ 64 := by omega
  rw [read_audio_tag_eq]
  simp only [List.headD_cons, h1, h2, h3, h4, hf, ne_eq, not_true_eq_false, if_false]
  rw [sub_size_t_eq _ _ hd hlt]
  have e1 : (fread 1 1 (fread 1 1 ⟨b :: a :: (raw ++ tail), pos, eof⟩).2.2).2.2
      = ⟨raw ++ tail, pos + 2, eof⟩ := by simp [fread]
  have e2 : (fread 1 1 ⟨b :: a :: (raw ++ tail), pos, eof⟩).2.2.rest.headD 0 = a := by
    simp [fread]
  rw [e1, e2, fread_bytes_exact raw tail (pos + 2) eof (data_size - 2) hr.symm]
  simp only [Except.ok.injEq, Prod.mk.injEq, FILE.mk.injEq, and_true, true_and]
  omega

/-- Audio other than AAC with its payload present: the raw data follow the first byte. -/
theorem read_audio_tag_plain_exact (b : Byte) (raw tail : List Byte) (pos : Nat) (eof : Bool)
    (data_size : Nat) (hsize : data_size < 2 ^ 32) (hf : b.val >>> 4 ≠ 10)
    (hd : 1 ≤ data_size) (hr : raw.length = data_size - 1) :
    read_audio_tag data_size ⟨b :: (raw ++ tail), pos, eof⟩
      = .ok (some { sound_format := b.val >>> 4,
                    sound_rate := (b.val >>> 2) &&& 3,
                    sound_size := (b.val >>> 1) &&& 1,
                    sound_type := b.val &&& 1,
                    data := raw,
                    aac_packet_type := none },
             ⟨tail, pos + data_size, eof⟩) := by
  obtain ⟨h1, h2, h3, h4, -⟩ := audio_bit_fields b
  have hlt : data_size < 2 ^ 64 := by omega
  rw [read_audio_tag_eq]
  simp only [List.headD_cons, h1, h2, h3, h4, hf, ne_eq, not_false_eq_true, if_true]
  rw [sub_size_t_eq _ _ hd hlt]
  have e1 : (fread 1 1 ⟨b :: (raw ++ tail), pos, eof⟩).2.2
      = ⟨raw ++ tail, pos + 1, eof⟩ := by simp [fread]
  rw [e1, fread_bytes_exact raw tail (pos + 1) eof (data_size - 1) hr.symm]
  simp only [Except.ok.injEq, Prod.mk.injEq, FILE.mk.injEq, and_true, true_and]
  omega

/-- C9: for an audio tag read from a stream that holds its payload.  If sound_format =
10 and payload_size ≥ 2, `read_audio_tag` reads one further byte as aac_packet_type and
then raw data of exactly payload_size − 2 bytes; if sound_format ≠ 10 and payload_size ≥
1, it reads no aac_packet_type and raw data of exactly payload_size − 1 bytes.  In both
cases the raw data are the stream bytes that follow immediately and exactly payload_size
bytes are consumed. -/
theorem C9_audio_raw_data (b : Byte) (raw tail : List Byte) (pos : Nat) (eof : Bool)
    (data_size : Nat) (hsize : data_size < 2 ^ 32) :
    (∀ a : Byte, b.val >>> 4 = 10 → 2 ≤ data_size → raw.length = data_size - 2 →
      read_audio_tag data_size ⟨b :: a :: (raw ++ tail), pos, eof⟩
        = .ok (some { sound_format := 10,
                      sound_rate := (b.val >>> 2) &&& 3,
                      sound_size := (b.val >>> 1) &&& 1,
                      sound_type := b.val &&& 1,
                      data := raw,
                      aac_packet_type := some a },
               ⟨tail, pos + data_size, eof⟩))
    ∧ (b.val >>> 4 ≠ 10 → 1 ≤ data_size → raw.length = data_size - 1 →
      read_audio_tag data_size ⟨b :: (raw ++ tail), pos, eof⟩
        = .ok (some { sound_format := b.val >>> 4,
                      sound_rate := (b.val >>> 2) &&& 3,
                      sound_size := (b.val >>> 1) &&& 1,
                      sound_type := b.val &&& 1,
                      data := raw,
                      aac_packet_type := none },
               ⟨tail, pos + data_size, eof⟩)) := by
  exact ⟨fun a hf hd hr => read_audio_tag_aac_exact b a raw tail pos eof data_size hsize hf hd hr,
    fun hf hd hr => read_audio_tag_plain_exact b raw tail pos eof data_size hsize hf hd hr⟩

/-- C9 at an AAC tag of payload_size 2 and at an MP3 tag of payload_size 3. -/
theorem C9_audio_raw_data_witness :
    (2 : Nat) < 2 ^ 32
    ∧ ((0xAF : Byte).val >>> 4 = 10 ∧ 2 ≤ 2 ∧ ([] : List Byte).length = 2 - 2
      ∧ read_audio_tag 2 ⟨0xAF :: 1 :: ([] ++ [0, 0, 0, 13]), 17, false⟩
        = .ok (some { sound_format := 10,
                      sound_rate := ((0xAF : Byte).val >>> 2) &&& 3,
                      sound_size := ((0xAF : Byte).val >>> 1) &&& 1,
                      sound_type := (0xAF : Byte).val &&& 1,
                      data := [],
                      aac_packet_type := some 1 },
               ⟨[0, 0, 0, 13], 17 + 2, false⟩))
    ∧ ((0x2F : Byte).val >>> 4 ≠ 10 ∧ 1 ≤ 3 ∧ ([7, 8] : List Byte).length = 3 - 1
      ∧ read_audio_tag 3 ⟨0x2F :: ([7, 8] ++ [0, 0, 0, 14]), 17, false⟩
        = .ok (some { sound_format := (0x2F : Byte).val >>> 4,
                      sound_rate := ((0x2F : Byte).val >>> 2) &&& 3,
                      sound_size := ((0x2F : Byte).val >>> 1) &&& 1,
                      sound_type := (0x2F : Byte).val &&& 1,
                      data := [7, 8],
                      aac_packet_type := none },
               ⟨[0, 0, 0, 14], 17 + 3, false⟩)) :=
  ⟨by decide,
   ⟨by decide, by decide, by decide,
    (C9_audio_raw_data 0xAF [] [0, 0, 0, 13] 17 false 2 (by decide)).1 1
      (by decide) (by decide) (by decide)⟩,
   ⟨by decide, by decide, by decide,
    (C9_audio_raw_data 0x2F [7, 8] [0, 0, 0, 14] 17 false 3 (by decide)).2
      (by decide) (by decide) (by decide)⟩⟩

theorem sub_size_t_chain_to_int (d : Nat) :
    to_int (sub_size_t (sub_size_t (sub_size_t d 1) 3) 4) = to_int (sub_u32 d 8)
    ∧ to_int (sub_size_t (sub_size_t d 1) 3) = to_int (sub_u32 d 4) := by
  unfold to_int sub_size_t sub_u32
  norm_num
  omega

theorem sub_u32_eq (d k : Nat) (hk : k ≤ d) (hd : d < 2 ^ 32) : sub_u32 d k = d - k := by
  unfold sub_u32
  have h1 : k % 2 ^ 32 = k := Nat.mod_eq_of_lt (by omega)
  rw [h1]
  have h2 : d + 2 ^ 32 - k = (d - k) + 2 ^ 32 := by omega
  rw [h2, Nat.add_mod_right]
  exact Nat.mod_eq_of_lt (by omega)

/-- Closed form of `read_avc_video_tag`: `NULL` only when the NALU buffer is refused. -/
theorem read_avc_video_tag_eq (data_size : Nat) (f : FILE) :
    read_avc_video_tag data_size f =
      if (f.rest.headD 0).val = 1 then
        if !malloc_ok (sub_size_t (sub_size_t (sub_size_t data_size 1) 3) 4) then
          .ok (none, (fread 4 1 (fread 3 1 (fread 1 1 f).2.2).2.2).2.2)
        else
          .ok (some { avc_packet_type := (f.rest.headD 0).val,
                      composition_time := be_value 3 (fread 1 1 f).2.2.rest,
                      nalu_len := be_value 4 (fread 3 1 (fread 1 1 f).2.2).2.2.rest,
                      data := (fread 1 (sub_size_t (sub_size_t (sub_size_t data_size 1) 3) 4)
                        (fread 4 1 (fread 3 1 (fread 1 1 f).2.2).2.2).2.2).1 },
               (fread 1 (sub_size_t (sub_size_t (sub_size_t data_size 1) 3) 4)
                 (fread 4 1 (fread 3 1 (fread 1 1 f).2.2).2.2).2.2).2.2)
      else
        .ok (some { avc_packet_type := (f.rest.headD 0).val,
                    composition_time := be_value 3 (fread 1 1 f).2.2.rest,
                    nalu_len := 0,
                    data := (fread 1 (sub_size_t (sub_size_t data_size 1) 3)
                      (fread 3 1 (fread 1 1 f).2.2).2.2).1 },
             (fread 1 (sub_size_t (sub_size_t data_size 1) 3)
               (fread 3 1 (fread 1 1 f).2.2).2.2).2.2) := by
  unfold read_avc_video_tag
  simp only [fread_1_ok, fread_3_ok, fread_4_ok, bind, Except.bind, pure, Except.pure]
  by_cases hp : (f.rest.headD 0).val = 1
  · rw [if_pos hp, if_pos hp]
    dsimp only
    rw [if_pos hp]
    simp only [check_fread_bytes _ _ (sub_size_t_chain_to_int data_size).1, ne_eq,
      not_true_eq_false, if_false]
  · rw [if_neg hp, if_neg hp]
    dsimp only
    rw [if_neg hp]
    simp only [check_fread_bytes _ _ (sub_size_t_chain_to_int data_size).2, ne_eq,
      not_true_eq_false, if_false]

/-- Closed form of `read_video_tag`. -/
theorem read_video_tag_eq (data_size : Nat) (f : FILE) :
    read_video_tag data_size f =
      if flv_get_bits (f.rest.headD 0).val 4 4 ≠ 5 then
        if flv_get_bits (f.rest.headD 0).val 0 4 = FLV_CODEC_ID_AVC then
          (read_avc_video_tag (sub_u32 data_size 1) (fread 1 1 f).2.2).map
            (fun r => (some { frame_type := flv_get_bits (f.rest.headD 0).val 4 4,
                              codec_id := flv_get_bits (f.rest.headD 0).val 0 4,
                              data := video_data.avc r.1, seek := none }, r.2))
        else
          .ok (some { frame_type := flv_get_bits (f.rest.headD 0).val 4 4,
                      codec_id := flv_get_bits (f.rest.headD 0).val 0 4,
                      data := video_data.raw
                        (fread 1 (sub_size_t data_size 1) (fread 1 1 f).2.2).1,
                      seek := none },
               (fread 1 (sub_size_t data_size 1) (fread 1 1 f).2.2).2.2)
      else
        .ok (some { frame_type := flv_get_bits (f.rest.headD 0).val 4 4,
                    codec_id := flv_get_bits (f.rest.headD 0).val 0 4,
                    data := video_data.null,
                    seek := some ((fread 1 1 f).2.2.rest.headD 0) },
             (fread 1 1 (fread 1 1 f).2.2).2.2) := by
  unfold read_video_tag
  simp only [fread_1_ok, bind, Except.bind, pure, Except.pure,
    check_fread_bytes _ _ (sub_size_t_to_int data_size 1 (by decide)), ne_eq,
    not_true_eq_false, if_false]
  split_ifs
  · cases read_avc_video_tag (sub_u32 data_size 1) (fread 1 1 f).2.2 <;> rfl
  · rfl
  · rfl

theorem video_bit_fields (b : Byte) :
    flv_get_bits b.val 4 4 = b.val >>> 4 ∧ flv_get_bits b.val 0 4 = b.val &&& 15 := by
  revert b; decide!

/-- An AVC NALU packet with its bytes present. -/
theorem read_avc_video_tag_nalu_exact (c0 c1 c2 n0 n1 n2 n3 : Byte) (raw tail : List Byte)
    (pos : Nat) (eof : Bool) (size : Nat) (hsize : size < 2 ^ 32) (hd : 8 ≤ size)
    (hr : raw.length = size - 8) :
    read_avc_video_tag size
        ⟨1 :: c0 :: c1 :: c2 :: n0 :: n1 :: n2 :: n3 :: (raw ++ tail), pos, eof⟩
      = .ok (some { avc_packet_type := 1,
                    composition_time := c0.val * 65536 + c1.val * 256 + c2.val,
                    nalu_len := n0.val * 16777216 + n1.val * 65536 + n2.val * 256 + n3.val,
                    data := raw },
             ⟨tail, pos + size, eof⟩) := by
  have hn : sub_size_t (sub_size_t (sub_size_t size 1) 3) 4 = size - 8 := by
    rw [sub_size_t_eq size 1 (by omega) (by omega),
      sub_size_t_eq (size - 1) 3 (by omega) (by omega),
      sub_size_t_eq (size - 1 - 3) 4 (by omega) (by omega)]
    omega
  have hm : malloc_ok (size - 8) = true := by
    unfold malloc_ok
    simp only [decide_eq_true_eq]
    omega
  rw [read_avc_video_tag_eq, hn]
  have e1 : (fread 4 1 (fread 3 1 (fread 1 1
      ⟨1 :: c0 :: c1 :: c2 :: n0 :: n1 :: n2 :: n3 :: (raw ++ tail), pos, eof⟩).2.2).2.2).2.2
      = ⟨raw ++ tail, pos + 8, eof⟩ := by simp [fread]
  have e2 : be_value 3 (fread 1 1
      ⟨1 :: c0 :: c1 :: c2 :: n0 :: n1 :: n2 :: n3 :: (raw ++ tail), pos, eof⟩).2.2.rest
      = c0.val * 65536 + c1.val * 256 + c2.val := by
    simp [fread, be_value, byte_at, List.range_succ]; omega
  have e3 : be_value 4 (fread 3 1 (fread 1 1
      ⟨1 :: c0 :: c1 :: c2 :: n0 :: n1 :: n2 :: n3 :: (raw ++ tail), pos, eof⟩).2.2).2.2.rest
      = n0.val * 16777216 + n1.val * 65536 + n2.val * 256 + n3.val := by
    simp [fread, be_value, byte_at, List.range_succ]; omega
  rw [e1, e2, e3, fread_bytes_exact raw tail (pos + 8) eof (size - 8) hr.symm]
  simp only [List.headD_cons, hm, Bool.not_true, Bool.false_eq_true, if_false]
  simp only [Fin.val_one, if_true, Except.ok.injEq, Prod.mk.injEq, FILE.mk.injEq, and_true,
    true_and]
  omega

/-- An AVC packet other than a NALU packet with its bytes present. -/
theorem read_avc_video_tag_other_exact (pt c0 c1 c2 : Byte) (raw tail : List Byte)
    (pos : Nat) (eof : Bool) (size : Nat) (hsize : size < 2 ^ 32) (hpt : pt.val ≠ 1)
    (hd : 4 ≤ size) (hr : raw.length = size - 4) :
    read_avc_video_tag size ⟨pt :: c0 :: c1 :: c2 :: (raw ++ tail), pos, eof⟩
      = .ok (some { avc_packet_type := pt.val,
                    composition_time := c0.val * 65536 + c1.val * 256 + c2.val,
                    nalu_len := 0,
                    data := raw },
             ⟨tail, pos + size, eof⟩) := by
  have hn : sub_size_t (sub_size_t size 1) 3 = size - 4 := by
    rw [sub_size_t_eq size 1 (by omega) (by omega),
      sub_size_t_eq (size - 1) 3 (by omega) (by omega)]
    omega
  rw [read_avc_video_tag_eq, hn]
  have e1 : (fread 3 1 (fread 1 1
      ⟨pt :: c0 :: c1 :: c2 :: (raw ++ tail), pos, eof⟩).2.2).2.2
      = ⟨raw ++ tail, pos + 4, eof⟩ := by simp [fread]
  have e2 : be_value 3 (fread 1 1
      ⟨pt :: c0 :: c1 :: c2 :: (raw ++ tail), pos, eof⟩).2.2.rest
      = c0.val * 65536 + c1.val * 256 + c2.val := by
    simp [fread, be_value, byte_at, List.range_succ]; omega
  rw [e1, e2, fread_bytes_exact raw tail (pos + 4) eof (size - 4) hr.symm]
  simp only [List.headD_cons, hpt, if_false, Except.ok.injEq, Prod.mk.injEq, FILE.mk.injEq,
    and_true, true_and]
  omega

/-- A video payload of a codec other than AVC, frame type other than 5, present in the
stream: the raw data are the bytes after the first one. -/
theorem read_video_tag_raw_exact (b : Byte) (raw tail : List Byte) (pos : Nat) (eof : Bool)
    (data_size : Nat) (hsize : data_size < 2 ^ 32) (hft : b.val >>> 4 ≠ 5)
    (hc : b.val &&& 15 ≠ 7) (hd : 1 ≤ data_size) (hr : raw.length = data_size - 1) :
    read_video_tag data_size ⟨b :: (raw ++ tail), pos, eof⟩
      = .ok (some { frame_type := b.val >>> 4, codec_id := b.val &&& 15,
                    data := video_data.raw raw, seek := none },
             ⟨tail, pos + data_size, eof⟩) := by
  obtain ⟨h1, h2⟩ := video_bit_fields b
  rw [read_video_tag_eq]
  simp only [List.headD_cons, h1, h2, hft, hc, FLV_CODEC_ID_AVC, ne_eq, not_false_eq_true,
    if_true, if_false]
  rw [sub_size_t_eq _ _ hd (by omega)]
  have e1 : (fread 1 1 ⟨b :: (raw ++ tail), pos, eof⟩).2.2
      = ⟨raw ++ tail, pos + 1, eof⟩ := by simp [fread]
  rw [e1, fread_bytes_exact raw tail (pos + 1) eof (data_size - 1) hr.symm]
  simp only [Except.ok.injEq, Prod.mk.injEq, FILE.mk.injEq, and_true, true_and]
  omega

/-- An info/command frame (frame type 5): one further byte, whatever `data_size` is. -/
theorem read_video_tag_info (b m : Byte) (tail : List Byte) (pos : Nat) (eof : Bool)
    (data_size : Nat) (hft : b.val >>> 4 = 5) :
    read_video_tag data_size ⟨b :: m :: tail, pos, eof⟩
      = .ok (some { frame_type := 5, codec_id := b.val &&& 15,
                    data := video_data.null, seek := some m },
             ⟨tail, pos + 2, eof⟩) := by
  obtain ⟨h1, h2⟩ := video_bit_fields b
  rw [read_video_tag_eq]
  simp [h1, h2, hft, fread]

theorem read_audio_tag_payload (payload tail : List Byte) (pos : Nat) (eof : Bool)
    (data_size : Nat) (hlen : payload.length = data_size) (hl : data_size < 2 ^ 32)
    (hmin : fixed_header_bytes TAGTYPE_AUDIODATA payload ≤ data_size) :
    ∃ a, read_audio_tag data_size ⟨payload ++ tail, pos, eof⟩
      = .ok (some a, ⟨tail, pos + data_size, eof⟩) := by
  rcases payload with _ | ⟨b, rest⟩
  · simp only [fixed_header_bytes, if_true, List.length_nil] at hmin hlen
    split_ifs at hmin <;> omega
  · simp only [List.length_cons] at hlen
    by_cases hf : b.val >>> 4 = 10
    · rcases rest with _ | ⟨a, raw⟩
      · simp [fixed_header_bytes, byte_at, hf] at hmin hlen
        omega
      · simp only [List.length_cons] at hlen
        exact ⟨_, read_audio_tag_aac_exact b a raw tail pos eof _ hl hf (by omega) (by omega)⟩
    · exact ⟨_, read_audio_tag_plain_exact b rest tail pos eof _ hl hf (by omega) (by omega)⟩

/-- An AVC video payload (frame type other than 5): the rest is left to
`read_avc_video_tag`, with size `data_size - 1`. -/
theorem read_video_tag_avc (b : Byte) (rest : List Byte) (pos : Nat) (eof : Bool)
    (data_size : Nat) (hft : b.val >>> 4 ≠ 5) (hc : b.val &&& 15 = 7) :
    read_video_tag data_size ⟨b :: rest, pos, eof⟩
      = (read_avc_video_tag (sub_u32 data_size 1) ⟨rest, pos + 1, eof⟩).map
          (fun r => (some { frame_type := b.val >>> 4, codec_id := b.val &&& 15,
                            data := video_data.avc r.1, seek := none }, r.2)) := by
  obtain ⟨h1, h2⟩ := video_bit_fields b
  rw [read_video_tag_eq]
  simp only [List.headD_cons, h1, h2]
  rw [if_pos hft, if_pos (by rw [hc]; rfl)]
  have e1 : (fread 1 1 ⟨b :: rest, pos, eof⟩).2.2 = ⟨rest, pos + 1, eof⟩ := by simp [fread]
  rw [e1]

theorem read_video_tag_payload (payload tail : List Byte) (pos : Nat) (eof : Bool)
    (data_size : Nat) (hlen : payload.length = data_size) (hl : data_size < 2 ^ 32)
    (hft : byte_at payload 0 >>> 4 ≠ 5)
    (hmin : fixed_header_bytes TAGTYPE_VIDEODATA payload ≤ data_size) :
    ∃ v, read_video_tag data_size ⟨payload ++ tail, pos, eof⟩
      = .ok (some v, ⟨tail, pos + data_size, eof⟩) := by
  rcases payload with _ | ⟨b, rest⟩
  · simp only [fixed_header_bytes, TAGTYPE_VIDEODATA, TAGTYPE_AUDIODATA, List.length_nil]
      at hmin hlen
    split_ifs at hmin <;> omega
  · have hft' : b.val >>> 4 ≠ 5 := by simpa [byte_at] using hft
    simp only [List.length_cons] at hlen
    by_cases hc : b.val &&& 15 = 7
    · have hsub : sub_u32 data_size 1 = data_size - 1 := sub_u32_eq _ _ (by omega) hl
      rw [show (b :: rest) ++ tail = b :: (rest ++ tail) from rfl,
        read_video_tag_avc b _ pos eof data_size hft' hc, hsub]
      have hmin' : (if byte_at (b :: rest) 1 = 1 then 9 else 5) ≤ data_size := by
        simpa [fixed_header_bytes, byte_at, FLV_CODEC_ID_AVC, TAGTYPE_VIDEODATA,
          TAGTYPE_AUDIODATA, hc] using hmin
      rcases rest with _ | ⟨pt, rest2⟩
      · simp at hlen; split_ifs at hmin' <;> omega
      · simp only [List.length_cons] at hlen
        by_cases hpt : pt.val = 1
        · have hpt' : pt = 1 := Fin.ext hpt
          subst hpt'
          simp [byte_at] at hmin'
          rcases rest2 with
            _ | ⟨c0, _ | ⟨c1, _ | ⟨c2, _ | ⟨n0, _ | ⟨n1, _ | ⟨n2, _ | ⟨n3, raw⟩⟩⟩⟩⟩⟩⟩
          all_goals simp only [List.length_cons, List.length_nil] at hlen
          any_goals omega
          rw [show (1 :: c0 :: c1 :: c2 :: n0 :: n1 :: n2 :: n3 :: raw) ++ tail
              = 1 :: c0 :: c1 :: c2 :: n0 :: n1 :: n2 :: n3 :: (raw ++ tail) from rfl,
            read_avc_video_tag_nalu_exact c0 c1 c2 n0 n1 n2 n3 raw tail (pos + 1) eof _
              (by omega) (by omega) (by omega)]
          have hpos : pos + 1 + (data_size - 1) = pos + data_size := by omega
          simp only [Except.map, hpos]
          exact ⟨_, rfl⟩
        · have hmin2 : 5 ≤ data_size := by simpa [byte_at, hpt] using hmin'
          rcases rest2 with _ | ⟨c0, _ | ⟨c1, _ | ⟨c2, raw⟩⟩⟩
          all_goals simp only [List.length_cons, List.length_nil] at hlen
          any_goals omega
          rw [show (pt :: c0 :: c1 :: c2 :: raw) ++ tail
              = pt :: c0 :: c1 :: c2 :: (raw ++ tail) from rfl,
            read_avc_video_tag_other_exact pt c0 c1 c2 raw tail (pos + 1) eof _ (by omega) hpt
              (by omega) (by omega)]
          have hpos : pos + 1 + (data_size - 1) = pos + data_size := by omega
          simp only [Except.map, hpos]
          exact ⟨_, rfl⟩
    · exact ⟨_, read_video_tag_raw_exact b rest tail pos eof _ hl hft' hc (by omega)
        (by omega)⟩

/-- `flv_read_tag` on an audio tag: the header, then `read_audio_tag`. -/
theorem flv_read_tag_audio (f f1 : FILE) (t : flv_tag)
    (hh : flv_read_tag_header f = .ok (some t, f1)) (hty : t.tag_type = TAGTYPE_AUDIODATA) :
    flv_read_tag f = (read_audio_tag t.data_size f1).map
      (fun r => (some { t with data := tag_data.audio r.1 }, r.2)) := by
  unfold flv_read_tag
  simp only [hh, bind, Except.bind, hty, if_true]
  cases read_audio_tag t.data_size f1 <;> rfl

/-- `flv_read_tag` on a video tag: the header, then `read_video_tag`. -/
theorem flv_read_tag_video (f f1 : FILE) (t : flv_tag)
    (hh : flv_read_tag_header f = .ok (some t, f1)) (hty : t.tag_type = TAGTYPE_VIDEODATA) :
    flv_read_tag f = (read_video_tag t.data_size f1).map
      (fun r => (some { t with data := tag_data.video r.1 }, r.2)) := by
  unfold flv_read_tag
  have h8 : ¬ (TAGTYPE_VIDEODATA = TAGTYPE_AUDIODATA) := by decide
  simp only [hh, bind, Except.bind, hty, h8, if_true, if_false]
  cases read_video_tag t.data_size f1 <;> rfl

/-! ## End of file in the middle of a record -/

/-- C6, as a counterexample: the stream `00 00 00 00 08 00 00 01` ends three bytes after
the leading byte of a tag, and `flv_read_tag` returns a tag instead of failing; likewise
`fread_3` on the one-byte stream `01` obtains one byte of three and does not fail. -/
theorem C6_counterexample :
    flv_read_tag (fopen [0, 0, 0, 0, 8, 0, 0, 1])
      = .ok (some { filter := 0, tag_type := 8, data_size := 1, timestamp := 0,
                    timestamp_ext := 0, stream_id := 0,
                    data := tag_data.audio
                      (some { sound_format := 0, sound_rate := 0, sound_size := 0,
                              sound_type := 0, data := [], aac_packet_type := none }) },
             ⟨[], 8, true⟩)
    ∧ fread_3 (fopen [1]) = .ok (65536, ⟨[], 1, true⟩) := by
  constructor <;> decide

/-- C6, amended: end of file inside a record is not an error.  Each fixed-width read
(`fread_2`, `fread_3`, `fread_4`, `fread_double`) returns normally on every stream: it
consumes the requested bytes as far as they exist, sets the end-of-file indicator when
they do not all exist, and yields the big-endian value of the bytes obtained, the missing
ones counting as zero.  So when the leading byte of a tag is present and fewer than ten
header bytes follow, the tag header is still produced, from the zero-padded bytes, with
the stream at end of file; and when that header is the one of an audio tag with
payload_size at least 1, `flv_read_tag` returns the tag, its four sound fields 0 and its
payload empty. -/
theorem C6_truncation_is_not_an_error :
    (∀ f : FILE,
      fread_2 f = .ok (be_value 2 f.rest, (fread 2 1 f).2.2)
      ∧ fread_3 f = .ok (be_value 3 f.rest, (fread 3 1 f).2.2)
      ∧ fread_4 f = .ok (be_value 4 f.rest, (fread 4 1 f).2.2)
      ∧ fread_double f = .ok (be_value 8 f.rest, (fread 8 1 f).2.2))
    ∧ (∀ (k : Nat) (f : FILE),
        (fread k 1 f).2.2
          = ⟨f.rest.drop k, f.pos + min k f.rest.length,
             f.eof || decide (f.rest.length < k)⟩)
    ∧ (∀ (p0 p1 p2 p3 b0 : Byte) (tail : List Byte) (pos : Nat) (eof : Bool),
        tail.length < 10 →
        flv_read_tag_header ⟨p0 :: p1 :: p2 :: p3 :: b0 :: tail, pos, eof⟩
          = .ok (some { filter := b0.val &&& 16,
                        tag_type := b0.val &&& 0x1F,
                        data_size := be_value 3 tail,
                        timestamp := be_value 3 (tail.drop 3),
                        timestamp_ext := byte_at tail 6,
                        stream_id := be_value 3 (tail.drop 7),
                        data := tag_data.null },
                 ⟨[], pos + 5 + tail.length, true⟩))
    ∧ (∀ (p0 p1 p2 p3 b0 : Byte) (tail : List Byte) (pos : Nat) (eof : Bool),
        tail.length < 10 → b0.val &&& 0x1F = 8 → 1 ≤ be_value 3 tail →
        flv_read_tag ⟨p0 :: p1 :: p2 :: p3 :: b0 :: tail, pos, eof⟩
          = .ok (some { filter := b0.val &&& 16,
                        tag_type := 8,
                        data_size := be_value 3 tail,
                        timestamp := be_value 3 (tail.drop 3),
                        timestamp_ext := byte_at tail 6,
                        stream_id := be_value 3 (tail.drop 7),
                        data := tag_data.audio
                          (some { sound_format := 0, sound_rate := 0, sound_size := 0,
                                  sound_type := 0, data := [], aac_packet_type := none }) },
                 ⟨[], pos + 5 + tail.length, true⟩)) := by
  have hdr : ∀ (p0 p1 p2 p3 b0 : Byte) (tail : List Byte) (pos : Nat) (eof : Bool),
      tail.length < 10 →
      flv_read_tag_header ⟨p0 :: p1 :: p2 :: p3 :: b0 :: tail, pos, eof⟩
        = .ok (some { filter := b0.val &&& 16,
                      tag_type := b0.val &&& 0x1F,
                      data_size := be_value 3 tail,
                      timestamp := be_value 3 (tail.drop 3),
                      timestamp_ext := byte_at tail 6,
                      stream_id := be_value 3 (tail.drop 7),
                      data := tag_data.null },
               ⟨[], pos + 5 + tail.length, true⟩) := by
    intro p0 p1 p2 p3 b0 tail pos eof hl
    rw [flv_read_tag_header_some]
    have h1 : List.drop 10 tail = [] := List.drop_eq_nil_of_le (by omega)
    have h2 : min 10 tail.length = tail.length := by omega
    simp [h1, h2, hl]
  refine ⟨fun f => ⟨fread_2_ok f, fread_3_ok f, fread_4_ok f, fread_double_ok f⟩, ?_, hdr,
    ?_⟩
  · intro k f
    have := fread_state k 1 f
    simpa using this
  · intro p0 p1 p2 p3 b0 tail pos eof hl h8 hd
    rw [flv_read_tag_audio _ _ _ (hdr p0 p1 p2 p3 b0 tail pos eof hl) h8, read_audio_tag_eq]
    have e1 : (fread 1 1 ⟨[], pos + 5 + tail.length, true⟩).2.2
        = ⟨[], pos + 5 + tail.length, true⟩ := by simp [fread]
    have e2 : ∀ n, fread 1 n ⟨[], pos + 5 + tail.length, true⟩
        = ([], 0, ⟨[], pos + 5 + tail.length, true⟩) := by
      intro n
      unfold fread
      split_ifs <;> simp
    dsimp only
    rw [e1, e2]
    simp [Except.map, h8, flv_get_bits]

/-- C6, amended, at the stream `00 00 00 00 08 00 00 01`. -/
theorem C6_truncation_is_not_an_error_witness :
    ([0, 0, 1] : List Byte).length < 10
    ∧ (8 : Byte).val &&& 0x1F = 8
    ∧ 1 ≤ be_value 3 [0, 0, 1]
    ∧ flv_read_tag_header ⟨[0, 0, 0, 0, 8, 0, 0, 1], 0, false⟩
      = .ok (some { filter := 0, tag_type := 8, data_size := 1, timestamp := 0,
                    timestamp_ext := 0, stream_id := 0, data := tag_data.null },
             ⟨[], 8, true⟩)
    ∧ flv_read_tag ⟨[0, 0, 0, 0, 8, 0, 0, 1], 0, false⟩
      = .ok (some { filter := 0, tag_type := 8, data_size := 1, timestamp := 0,
                    timestamp_ext := 0, stream_id := 0,
                    data := tag_data.audio
                      (some { sound_format := 0, sound_rate := 0, sound_size := 0,
                              sound_type := 0, data := [], aac_packet_type := none }) },
             ⟨[], 8, true⟩) :=
  ⟨by decide, by decide, by decide,
   C6_truncation_is_not_an_error.2.2.1 0 0 0 0 8 [0, 0, 1] 0 false (by decide),
   C6_truncation_is_not_an_error.2.2.2 0 0 0 0 8 [0, 0, 1] 0 false (by decide) (by decide)
     (by decide)⟩

/-! ## Payload consumption -/

/-- C7, as a counterexample: a video tag with declared payload_size 5 whose first payload
byte has frame type 5 is decoded without error from a stream holding its five payload
bytes, yet its decoder consumes 2 bytes only: the stream is left at offset 17, not at
tag_start + 11 + payload_size = 4 + 11 + 5 = 20. -/
theorem C7_counterexample :
    flv_read_tag (fopen [0, 0, 0, 0, 9, 0, 0, 5, 0, 0, 0, 0, 0, 0, 0, 0x57, 1, 2, 3, 4])
      = .ok (some { filter := 0, tag_type := 9, data_size := 5, timestamp := 0,
                    timestamp_ext := 0, stream_id := 0,
                    data := tag_data.video
                      (some { frame_type := 5, codec_id := 7, data := video_data.null,
                              seek := some 1 }) },
             ⟨[2, 3, 4], 17, false⟩)
    ∧ (17 : Nat) ≠ 4 + 11 + 5 := by
  constructor <;> decide

/-- C7, amended: for an audio tag, or a video tag whose frame type is not 5, read by
`flv_read_tag` from a stream that holds the whole payload after the 11-byte tag header,
and whose declared payload_size is at least the number of bytes its decoder reads before
the raw data (`fixed_header_bytes`), the payload decoder consumes exactly payload_size
bytes: the tag is returned with the stream at tag_start + 11 + payload_size, where the
next previous tag size is read.  A video tag of frame type 5 consumes exactly two
payload bytes, whatever its declared payload_size. -/
theorem C7_payload_consumed_exactly
    (p0 p1 p2 p3 b0 s0 s1 s2 t0 t1 t2 te i0 i1 i2 : Byte) (tail : List Byte) (pos : Nat)
    (eof : Bool) :
    (∀ payload : List Byte,
      payload.length = s0.val * 65536 + s1.val * 256 + s2.val →
      (b0.val &&& 0x1F = 8 ∨ (b0.val &&& 0x1F = 9 ∧ byte_at payload 0 >>> 4 ≠ 5)) →
      fixed_header_bytes (b0.val &&& 0x1F) payload ≤ payload.length →
      ∃ t : flv_tag,
        flv_read_tag
            ⟨p0 :: p1 :: p2 :: p3 :: b0 :: s0 :: s1 :: s2 :: t0 :: t1 :: t2 :: te :: i0 :: i1 ::
              i2 :: (payload ++ tail), pos, eof⟩
          = .ok (some t, ⟨tail, (pos + 4) + 11 + payload.length, eof⟩)
        ∧ t.data_size = payload.length)
    ∧ (∀ b m : Byte, b0.val &&& 0x1F = 9 → b.val >>> 4 = 5 →
      ∃ t : flv_tag,
        flv_read_tag
            ⟨p0 :: p1 :: p2 :: p3 :: b0 :: s0 :: s1 :: s2 :: t0 :: t1 :: t2 :: te :: i0 :: i1 ::
              i2 :: b :: m :: tail, pos, eof⟩
          = .ok (some t, ⟨tail, (pos + 4) + 11 + 2, eof⟩)
        ∧ t.data_size = s0.val * 65536 + s1.val * 256 + s2.val) := by
  constructor
  · intro payload hlen hty hmin
    have hh := flv_read_tag_header_cons p0 p1 p2 p3 b0 s0 s1 s2 t0 t1 t2 te i0 i1 i2
      (payload ++ tail) pos eof
    have hl : s0.val * 65536 + s1.val * 256 + s2.val < 2 ^ 32 := by omega
    rcases hty with h8 | ⟨h9, hft⟩
    · rw [flv_read_tag_audio _ _ _ hh h8]
      rw [h8] at hmin
      obtain ⟨a, ha⟩ := read_audio_tag_payload payload tail (pos + 15) eof _ hlen hl
        (by rw [← hlen]; exact hmin)
      dsimp only
      rw [ha]
      have hpos : pos + 15 + (s0.val * 65536 + s1.val * 256 + s2.val)
          = pos + 4 + 11 + payload.length := by omega
      simp only [Except.map, hpos]
      exact ⟨_, rfl, hlen.symm⟩
    · rw [flv_read_tag_video _ _ _ hh h9]
      rw [h9] at hmin
      obtain ⟨v, hv⟩ := read_video_tag_payload payload tail (pos + 15) eof _ hlen hl hft
        (by rw [← hlen]; exact hmin)
      dsimp only
      rw [hv]
      have hpos : pos + 15 + (s0.val * 65536 + s1.val * 256 + s2.val)
          = pos + 4 + 11 + payload.length := by omega
      simp only [Except.map, hpos]
      exact ⟨_, rfl, hlen.symm⟩
  · intro b m h9 hft
    have hh := flv_read_tag_header_cons p0 p1 p2 p3 b0 s0 s1 s2 t0 t1 t2 te i0 i1 i2
      (b :: m :: tail) pos eof
    rw [flv_read_tag_video _ _ _ hh h9]
    dsimp only
    rw [read_video_tag_info b m tail (pos + 15) eof _ hft]
    have hpos : pos + 15 + 2 = pos + 4 + 11 + 2 := by omega
    simp only [Except.map, hpos]
    exact ⟨_, rfl, rfl⟩

/-- C7, amended, at the AAC audio tag with payload `AF 01`. -/
theorem C7_payload_consumed_exactly_witness :
    ([0xAF, 1] : List Byte).length
        = (0 : Byte).val * 65536 + (0 : Byte).val * 256 + (2 : Byte).val
    ∧ ((8 : Byte).val &&& 0x1F = 8
        ∨ ((8 : Byte).val &&& 0x1F = 9 ∧ byte_at [0xAF, 1] 0 >>> 4 ≠ 5))
    ∧ fixed_header_bytes ((8 : Byte).val &&& 0x1F) [0xAF, 1] ≤ ([0xAF, 1] : List Byte).length
    ∧ ∃ t : flv_tag,
        flv_read_tag
            ⟨0 :: 0 :: 0 :: 0 :: 8 :: 0 :: 0 :: 2 :: 0 :: 0 :: 0 :: 0 :: 0 :: 0 ::
              0 :: ([0xAF, 1] ++ [0, 0, 0, 13]), 9, false⟩
          = .ok (some t, ⟨[0, 0, 0, 13], (9 + 4) + 11 + ([0xAF, 1] : List Byte).length, false⟩)
        ∧ t.data_size = ([0xAF, 1] : List Byte).length :=
  ⟨by decide, by decide, by decide,
   (C7_payload_consumed_exactly 0 0 0 0 8 0 0 2 0 0 0 0 0 0 0 [0, 0, 0, 13] 9 false).1
     [0xAF, 1] (by decide) (by decide) (by decide)⟩

/-! ## Video payload claims -/

/-- C11: when the first payload byte of a video tag has frame type 5, whatever its codec
id (7 included) and whatever the declared payload_size, `read_video_tag` reads exactly
one more byte, the seek marker, leaves `data` at `NULL` (the AVC decoder is not run, no
raw data are read) and has consumed exactly two payload bytes. -/
theorem C11_info_frame_reads_one_byte (b m : Byte) (tail : List Byte) (pos : Nat)
    (eof : Bool) (data_size : Nat) (hft : b.val >>> 4 = 5) :
    read_video_tag data_size ⟨b :: m :: tail, pos, eof⟩
      = .ok (some { frame_type := 5, codec_id := b.val &&& 15,
                    data := video_data.null, seek := some m },
             ⟨tail, pos + 2, eof⟩) := by
  obtain ⟨h1, h2⟩ := video_bit_fields b
  rw [read_video_tag_eq]
  have e1 : (fread 1 1 (fread 1 1 ⟨b :: m :: tail, pos, eof⟩).2.2).2.2
      = ⟨tail, pos + 2, eof⟩ := by simp [fread]
  have e2 : (fread 1 1 ⟨b :: m :: tail, pos, eof⟩).2.2.rest.headD 0 = m := by simp [fread]
  rw [e1, e2]
  simp only [List.headD_cons, h1, h2, hft, ne_eq, not_true_eq_false, if_false]

/-- C11 at the first byte 0x57 (frame type 5, codec id 7) with declared payload_size 5. -/
theorem C11_info_frame_reads_one_byte_witness :
    (0x57 : Byte).val >>> 4 = 5
    ∧ read_video_tag 5 ⟨0x57 :: 1 :: [2, 3, 4], 15, false⟩
      = .ok (some { frame_type := 5, codec_id := (0x57 : Byte).val &&& 15,
                    data := video_data.null, seek := some 1 },
             ⟨[2, 3, 4], 15 + 2, false⟩) :=
  ⟨by decide, C11_info_frame_reads_one_byte 0x57 1 [2, 3, 4] 15 false 5 (by decide)⟩

/-- C12: `read_avc_video_tag` called with remaining size `size` on a stream that holds
those bytes.  For packet type 1 and size ≥ 8 it reads the 4-byte big-endian NALU length
and raw data of exactly size − 8 bytes; for another packet type and size ≥ 4 it reads no
NALU length (`nalu_len` stays 0) and raw data of exactly size − 4 bytes; in both cases
exactly `size` bytes are consumed.  Hence an AVC video tag (frame type other than 5,
codec id 7) of payload_size ≥ 9, resp. ≥ 5, consumes exactly payload_size bytes. -/
theorem C12_avc_packet_sizes (c0 c1 c2 : Byte) (raw tail : List Byte) (pos : Nat)
    (eof : Bool) (size : Nat) (hsize : size < 2 ^ 32) :
    (∀ n0 n1 n2 n3 : Byte, 8 ≤ size → raw.length = size - 8 →
      read_avc_video_tag size
          ⟨1 :: c0 :: c1 :: c2 :: n0 :: n1 :: n2 :: n3 :: (raw ++ tail), pos, eof⟩
        = .ok (some { avc_packet_type := 1,
                      composition_time := c0.val * 65536 + c1.val * 256 + c2.val,
                      nalu_len := n0.val * 16777216 + n1.val * 65536 + n2.val * 256 + n3.val,
                      data := raw },
               ⟨tail, pos + size, eof⟩))
    ∧ (∀ pt : Byte, pt.val ≠ 1 → 4 ≤ size → raw.length = size - 4 →
      read_avc_video_tag size ⟨pt :: c0 :: c1 :: c2 :: (raw ++ tail), pos, eof⟩
        = .ok (some { avc_packet_type := pt.val,
                      composition_time := c0.val * 65536 + c1.val * 256 + c2.val,
                      nalu_len := 0,
                      data := raw },
               ⟨tail, pos + size, eof⟩))
    ∧ (∀ b n0 n1 n2 n3 : Byte, b.val >>> 4 ≠ 5 → b.val &&& 15 = 7 → 8 ≤ size →
      size + 1 < 2 ^ 32 → raw.length = size - 8 →
      read_video_tag (size + 1)
          ⟨b :: 1 :: c0 :: c1 :: c2 :: n0 :: n1 :: n2 :: n3 :: (raw ++ tail), pos, eof⟩
        = .ok (some { frame_type := b.val >>> 4, codec_id := b.val &&& 15,
                      data := video_data.avc (some
                        { avc_packet_type := 1,
                          composition_time := c0.val * 65536 + c1.val * 256 + c2.val,
                          nalu_len :=
                            n0.val * 16777216 + n1.val * 65536 + n2.val * 256 + n3.val,
                          data := raw }),
                      seek := none },
               ⟨tail, pos + (size + 1), eof⟩))
    ∧ (∀ b pt : Byte, b.val >>> 4 ≠ 5 → b.val &&& 15 = 7 → pt.val ≠ 1 → 4 ≤ size →
      size + 1 < 2 ^ 32 → raw.length = size - 4 →
      read_video_tag (size + 1) ⟨b :: pt :: c0 :: c1 :: c2 :: (raw ++ tail), pos, eof⟩
        = .ok (some { frame_type := b.val >>> 4, codec_id := b.val &&& 15,
                      data := video_data.avc (some
                        { avc_packet_type := pt.val,
                          composition_time := c0.val * 65536 + c1.val * 256 + c2.val,
                          nalu_len := 0,
                          data := raw }),
                      seek := none },
               ⟨tail, pos + (size + 1), eof⟩)) := by
  refine ⟨?_, ?_, ?_, ?_⟩
  · intro n0 n1 n2 n3 hd hr
    exact read_avc_video_tag_nalu_exact c0 c1 c2 n0 n1 n2 n3 raw tail pos eof size hsize hd hr
  · intro pt hpt hd hr
    exact read_avc_video_tag_other_exact pt c0 c1 c2 raw tail pos eof size hsize hpt hd hr
  · intro b n0 n1 n2 n3 hft hc hd hs hr
    have hsub : sub_u32 (size + 1) 1 = size := by
      rw [sub_u32_eq _ _ (by omega) hs]; omega
    rw [read_video_tag_avc b _ pos eof (size + 1) hft hc, hsub,
      read_avc_video_tag_nalu_exact c0 c1 c2 n0 n1 n2 n3 raw tail (pos + 1) eof size hsize
        hd hr]
    have hpos : pos + 1 + size = pos + (size + 1) := by omega
    simp only [Except.map, hpos]
  · intro b pt hft hc hpt hd hs hr
    have hsub : sub_u32 (size + 1) 1 = size := by
      rw [sub_u32_eq _ _ (by omega) hs]; omega
    rw [read_video_tag_avc b _ pos eof (size + 1) hft hc, hsub,
      read_avc_video_tag_other_exact pt c0 c1 c2 raw tail (pos + 1) eof size hsize hpt hd hr]
    have hpos : pos + 1 + size = pos + (size + 1) := by omega
    simp only [Except.map, hpos]

/-- C12 at a NALU packet of size 10 and at a sequence header of size 6. -/
theorem C12_avc_packet_sizes_witness :
    ((10 : Nat) < 2 ^ 32 ∧ 8 ≤ 10 ∧ ([7, 8] : List Byte).length = 10 - 8
      ∧ read_avc_video_tag 10
          ⟨1 :: 0 :: 0 :: 5 :: 0 :: 0 :: 0 :: 2 :: ([7, 8] ++ [0, 0, 0, 21]), 16, false⟩
        = .ok (some { avc_packet_type := 1,
                      composition_time :=
                        (0 : Byte).val * 65536 + (0 : Byte).val * 256 + (5 : Byte).val,
                      nalu_len := (0 : Byte).val * 16777216 + (0 : Byte).val * 65536
                        + (0 : Byte).val * 256 + (2 : Byte).val,
                      data := [7, 8] },
               ⟨[0, 0, 0, 21], 16 + 10, false⟩))
    ∧ ((6 : Nat) < 2 ^ 32 ∧ (0 : Byte).val ≠ 1 ∧ 4 ≤ 6 ∧ ([7, 8] : List Byte).length = 6 - 4
      ∧ read_avc_video_tag 6 ⟨0 :: 0 :: 0 :: 5 :: ([7, 8] ++ [0, 0, 0, 17]), 16, false⟩
        = .ok (some { avc_packet_type := (0 : Byte).val,
                      composition_time :=
                        (0 : Byte).val * 65536 + (0 : Byte).val * 256 + (5 : Byte).val,
                      nalu_len := 0,
                      data := [7, 8] },
               ⟨[0, 0, 0, 17], 16 + 6, false⟩)) :=
  ⟨⟨by decide, by decide, by decide,
    (C12_avc_packet_sizes 0 0 5 [7, 8] [0, 0, 0, 21] 16 false 10 (by decide)).1 0 0 0 2
      (by decide) (by decide)⟩,
   ⟨by decide, by decide, by decide, by decide,
    (C12_avc_packet_sizes 0 0 5 [7, 8] [0, 0, 0, 17] 16 false 6 (by decide)).2.1 0
      (by decide) (by decide) (by decide)⟩⟩

/-- C13: for a video tag with frame type other than 5, codec id other than 7 and
payload_size ≥ 1, read from a stream that holds the payload, `read_video_tag` stores as
raw data exactly the payload_size − 1 bytes that follow the first payload byte, verbatim
and in order, and consumes exactly payload_size bytes. -/
theorem C13_opaque_video_data (b : Byte) (raw tail : List Byte) (pos : Nat) (eof : Bool)
    (data_size : Nat) (hsize : data_size < 2 ^ 32) (hft : b.val >>> 4 ≠ 5)
    (hc : b.val &&& 15 ≠ 7) (hd : 1 ≤ data_size) (hr : raw.length = data_size - 1) :
    read_video_tag data_size ⟨b :: (raw ++ tail), pos, eof⟩
      = .ok (some { frame_type := b.val >>> 4, codec_id := b.val &&& 15,
                    data := video_data.raw raw, seek := none },
             ⟨tail, pos + data_size, eof⟩) := by
  obtain ⟨h1, h2⟩ := video_bit_fields b
  have e1 : (fread 1 1 ⟨b :: (raw ++ tail), pos, eof⟩).2.2
      = ⟨raw ++ tail, pos + 1, eof⟩ := by simp [fread]
  have hpos : pos + 1 + (data_size - 1) = pos + data_size := by omega
  rw [read_video_tag_eq, sub_size_t_eq _ _ hd (by omega), e1,
    fread_bytes_exact raw tail (pos + 1) eof (data_size - 1) hr.symm, hpos]
  simp only [List.headD_cons, h1, h2, hft, hc, FLV_CODEC_ID_AVC, ne_eq, not_false_eq_true,
    if_true, if_false]

/-- C13 at a Sorenson H.263 key frame (first byte 0x12) of payload_size 4. -/
theorem C13_opaque_video_data_witness :
    (4 : Nat) < 2 ^ 32 ∧ (0x12 : Byte).val >>> 4 ≠ 5 ∧ (0x12 : Byte).val &&& 15 ≠ 7
    ∧ 1 ≤ 4 ∧ ([9, 8, 7] : List Byte).length = 4 - 1
    ∧ read_video_tag 4 ⟨0x12 :: ([9, 8, 7] ++ [0, 0, 0, 15]), 15, false⟩
      = .ok (some { frame_type := (0x12 : Byte).val >>> 4,
                    codec_id := (0x12 : Byte).val &&& 15,
                    data := video_data.raw [9, 8, 7], seek := none },
             ⟨[0, 0, 0, 15], 15 + 4, false⟩) :=
  ⟨by decide, by decide, by decide, by decide, by decide,
   C13_opaque_video_data 0x12 [9, 8, 7] [0, 0, 0, 15] 15 false 4
     (by decide) (by decide) (by decide) (by decide) (by decide)⟩


theorem filter_mask (b : Byte) : b.val &&& 16 = 16 * ((b.val >>> 4) &&& 1) := by
  revert b; decide!

/-- C17, the code evaluated where the claim fails: `flv_read_tag` stores
`first_byte & (1 << 4)` without shifting it down, so the filter field is 16 times the
bit (b0 >> 4) & 1; for the leading byte 0x12 of a script tag it is 16, not 1 (for 0x08
it is 0). -/
theorem C17_filter_is_not_shifted :
    (∀ (p0 p1 p2 p3 b0 : Byte) (tail : List Byte) (pos : Nat) (eof : Bool),
      ∃ (t : flv_tag) (f1 : FILE),
        flv_read_tag_header ⟨p0 :: p1 :: p2 :: p3 :: b0 :: tail, pos, eof⟩ = .ok (some t, f1)
        ∧ t.filter = 16 * ((b0.val >>> 4) &&& 1))
    ∧ flv_read_tag_header (fopen [0, 0, 0, 0, 0x12, 0, 0, 0, 0, 0, 0, 0, 0, 0, 0])
      = .ok (some { filter := 16, tag_type := 18, data_size := 0, timestamp := 0,
                    timestamp_ext := 0, stream_id := 0, data := tag_data.null },
             ⟨[], 15, false⟩)
    ∧ ((0x12 : Byte).val >>> 4) &&& 1 = 1
    ∧ flv_read_tag_header (fopen [0, 0, 0, 0, 0x08, 0, 0, 0, 0, 0, 0, 0, 0, 0, 0])
      = .ok (some { filter := 0, tag_type := 8, data_size := 0, timestamp := 0,
                    timestamp_ext := 0, stream_id := 0, data := tag_data.null },
             ⟨[], 15, false⟩) := by
  refine ⟨?_, by decide, by decide, by decide⟩
  intro p0 p1 p2 p3 b0 tail pos eof
  exact ⟨_, _, flv_read_tag_header_some p0 p1 p2 p3 b0 tail pos eof, filter_mask b0⟩

/-! ## Bounds of the audio fields -/

theorem audio_field_bounds (b : Byte) :
    flv_get_bits b.val 4 4 < 16 ∧ flv_get_bits b.val 2 2 < 4
    ∧ flv_get_bits b.val 1 1 < 2 ∧ flv_get_bits b.val 0 1 < 2 := by
  revert b; decide!

/-- C19: on every stream and for every declared payload_size, `read_audio_tag` returns a
tag whose sound_format is in [0,15], sound_rate in [0,3], sound_size in {0,1} and
sound_type in {0,1}; the four fields are therefore valid indices into the tables
`sound_formats` (16 entries), `sound_rates` (4), `sound_sizes` (2) and `sound_types`
(2). -/
theorem C19_audio_fields_in_bounds (data_size : Nat) (f : FILE) :
    ∃ (t : audio_tag) (f1 : FILE),
      read_audio_tag data_size f = .ok (some t, f1)
      ∧ t.sound_format < 16 ∧ t.sound_rate < 4 ∧ t.sound_size < 2 ∧ t.sound_type < 2
      ∧ t.sound_format < sound_formats.length ∧ t.sound_rate < sound_rates.length
      ∧ t.sound_size < sound_sizes.length ∧ t.sound_type < sound_types.length := by
  obtain ⟨h1, h2, h3, h4⟩ := audio_field_bounds (f.rest.headD 0)
  rw [read_audio_tag_eq]
  split_ifs
  · exact ⟨_, _, rfl, h1, h2, h3, h4, h1, h2, h3, h4⟩
  · exact ⟨_, _, rfl, h1, h2, h3, h4, h1, h2, h3, h4⟩


/-! ## The declared header size -/

theorem signature_check_passes (rest : List Byte) (h : rest.take 3 = flv_signature) :
    (List.range flv_signature.length).all
      (fun i => decide ((store init_flv_header_t (rest.take 9)).getD i 0
        = flv_signature.getD i 0)) = true := by
  have hr : List.range flv_signature.length = [0, 1, 2] := by decide
  rw [hr]
  rcases rest with _ | ⟨a, _ | ⟨b, _ | ⟨c, t⟩⟩⟩
  · simp [flv_signature] at h
  · simp [flv_signature] at h
  · simp [flv_signature] at h
  · simp only [flv_signature, List.take_succ_cons, List.take_zero, List.cons.injEq,
      and_true] at h
    obtain ⟨rfl, rfl, rfl⟩ := h
    simp [store, init_flv_header_t, flv_signature]

/-- A run is the signature test on the first three bytes followed, when it passes, by
the tag loop on the stream nine bytes further; nothing else of the header matters. -/
theorem flv_parser_run_eq (f : FILE) :
    flv_parser_run f =
      if f.rest.take 3 = flv_signature then
        tag_loop ((fread 9 1 f).2.2.rest.length + 1) (fread 9 1 f).2.2
      else { tags := [], final := (fread 9 1 f).2.2, outcome := Outcome.stopped Fatal.abort } := by
  by_cases h : f.rest.take 3 = flv_signature
  · rw [if_pos h]
    unfold flv_parser_run flv_read_header
    simp only [fread_item_no_error 9 (by decide) f, fread_item_got 9 (by decide) f,
      signature_check_passes f.rest h]
    simp
  · rw [if_neg h]
    unfold flv_parser_run flv_read_header
    simp only [fread_item_no_error 9 (by decide) f, fread_item_got 9 (by decide) f,
      signature_check_fails f.rest h]
    simp

/-- C18: the declared header size is not used.  Two inputs of at least nine bytes that
differ only in bytes 5..8 give the same run: the same tags, the same final stream state
and the same outcome; with a valid signature that run is the tag loop started at offset
9, where the first previous tag size is read.  Two inputs shorter than nine bytes, of
the same length and equal on bytes 0..4, give the same run too. -/
theorem C18_header_size_is_not_used :
    (∀ (s0 s1 s2 v fl o0 o1 o2 o3 q0 q1 q2 q3 : Byte) (tail : List Byte),
      flv_parser_run (fopen (s0 :: s1 :: s2 :: v :: fl :: o0 :: o1 :: o2 :: o3 :: tail))
        = flv_parser_run (fopen (s0 :: s1 :: s2 :: v :: fl :: q0 :: q1 :: q2 :: q3 :: tail)))
    ∧ (∀ (v fl o0 o1 o2 o3 : Byte) (tail : List Byte),
      flv_parser_run (fopen (0x46 :: 0x4C :: 0x56 :: v :: fl :: o0 :: o1 :: o2 :: o3 :: tail))
        = tag_loop (tail.length + 1) ⟨tail, 9, false⟩)
    ∧ (∀ a b : List Byte, a.length = b.length → a.length < 9 → a.take 5 = b.take 5 →
      flv_parser_run (fopen a) = flv_parser_run (fopen b)) := by
  refine ⟨?_, ?_, ?_⟩
  · intro s0 s1 s2 v fl o0 o1 o2 o3 q0 q1 q2 q3 tail
    rw [flv_parser_run_eq, flv_parser_run_eq]
    simp [fopen, fread]
  · intro v fl o0 o1 o2 o3 tail
    rw [flv_parser_run_eq]
    simp [fopen, fread, flv_signature]
  · intro a b hl h9 h5
    have h3 : a.take 3 = b.take 3 := by
      have := congrArg (List.take 3) h5
      simpa [List.take_take] using this
    have hb : b.length < 9 := by omega
    rw [flv_parser_run_eq, flv_parser_run_eq]
    simp only [fread_state, fopen, h3, hl]
    rw [List.drop_eq_nil_of_le (by omega : a.length ≤ 9 * 1),
      List.drop_eq_nil_of_le (by omega : b.length ≤ 9 * 1)]

/-- C18 at the seven-byte inputs `46 4C 56 01 05 00 00` and `46 4C 56 01 05 07 09`. -/
theorem C18_header_size_is_not_used_witness :
    ([0x46, 0x4C, 0x56, 1, 5, 0, 0] : List Byte).length
        = ([0x46, 0x4C, 0x56, 1, 5, 7, 9] : List Byte).length
    ∧ ([0x46, 0x4C, 0x56, 1, 5, 0, 0] : List Byte).length < 9
    ∧ ([0x46, 0x4C, 0x56, 1, 5, 0, 0] : List Byte).take 5
        = ([0x46, 0x4C, 0x56, 1, 5, 7, 9] : List Byte).take 5
    ∧ flv_parser_run (fopen [0x46, 0x4C, 0x56, 1, 5, 0, 0])
        = flv_parser_run (fopen [0x46, 0x4C, 0x56, 1, 5, 7, 9]) :=
  ⟨by decide, by decide, by decide,
   C18_header_size_is_not_used.2.2 [0x46, 0x4C, 0x56, 1, 5, 0, 0] [0x46, 0x4C, 0x56, 1, 5, 7, 9]
     (by decide) (by decide) (by decide)⟩


/-! ## Script data: decoding a well-formed property list -/

theorem be_bytes_two (n : Nat) (h : n < 65536) :
    ∃ a b : Byte, be_bytes 2 n = [a, b] ∧ a.val * 256 + b.val = n := by
  refine ⟨⟨n / 256 ^ 1 % 256, Nat.mod_lt _ (by decide)⟩,
    ⟨n / 256 ^ 0 % 256, Nat.mod_lt _ (by decide)⟩, rfl, ?_⟩
  simp only [pow_one, pow_zero, Nat.div_one]
  omega

theorem fread_double_cons (b0 b1 b2 b3 b4 b5 b6 b7 : Byte) (rest : List Byte) (pos : Nat)
    (eof : Bool) :
    fread_double ⟨b0 :: b1 :: b2 :: b3 :: b4 :: b5 :: b6 :: b7 :: rest, pos, eof⟩
      = .ok (((((((b0.val * 256 + b1.val) * 256 + b2.val) * 256 + b3.val) * 256 + b4.val)
              * 256 + b5.val) * 256 + b6.val) * 256 + b7.val, ⟨rest, pos + 8, eof⟩) := by
  rw [fread_double_ok]
  simp [fread, be_value, byte_at, List.range_succ]

theorem be_bytes_eight (n : Nat) (h : n < 2 ^ 64) :
    ∃ b0 b1 b2 b3 b4 b5 b6 b7 : Byte, be_bytes 8 n = [b0, b1, b2, b3, b4, b5, b6, b7]
      ∧ ((((((b0.val * 256 + b1.val) * 256 + b2.val) * 256 + b3.val) * 256 + b4.val)
              * 256 + b5.val) * 256 + b6.val) * 256 + b7.val = n := by
  refine ⟨⟨n / 256 ^ 7 % 256, Nat.mod_lt _ (by decide)⟩,
    ⟨n / 256 ^ 6 % 256, Nat.mod_lt _ (by decide)⟩, ⟨n / 256 ^ 5 % 256, Nat.mod_lt _ (by decide)⟩,
    ⟨n / 256 ^ 4 % 256, Nat.mod_lt _ (by decide)⟩, ⟨n / 256 ^ 3 % 256, Nat.mod_lt _ (by decide)⟩,
    ⟨n / 256 ^ 2 % 256, Nat.mod_lt _ (by decide)⟩, ⟨n / 256 ^ 1 % 256, Nat.mod_lt _ (by decide)⟩,
    ⟨n / 256 ^ 0 % 256, Nat.mod_lt _ (by decide)⟩, rfl, ?_⟩
  norm_num at h ⊢
  omega

theorem read_properties_step (n : Nat) (type : Byte) (p : wire_property)
    (hp : wire_ok p = true) (rest : List Byte) (pos : Nat) (eof : Bool) :
    read_properties (n + 1) type ⟨encode_property p ++ rest, pos, eof⟩ =
      (read_properties n (type_tag p.value) ⟨rest, pos + property_size p, eof⟩).map
        (fun r => ((r.1.1, reported [p] ++ r.1.2), r.2)) := by
  obtain ⟨name, value⟩ := p
  simp only [wire_ok, Bool.and_eq_true, decide_eq_true_eq] at hp
  obtain ⟨hn, hv⟩ := hp
  obtain ⟨a, b, hab, hval⟩ := be_bytes_two name.length hn
  have hs : encode_property ⟨name, value⟩ ++ rest
      = a :: b :: (name ++ (type_tag value :: (value_bytes value ++ rest))) := by
    simp [encode_property, hab]
  rw [hs, read_properties]
  simp only [bind, Except.bind, fread_2_cons, hval,
    fread_bytes_exact name _ (pos + 2) eof name.length rfl, fread_1_cons]
  cases value with
  | supported v =>
    cases v with
    | number bits =>
      simp only [decide_eq_true_eq] at hv
      obtain ⟨b0, b1, b2, b3, b4, b5, b6, b7, h8, h8v⟩ := be_bytes_eight bits hv
      have hpos : pos + 2 + name.length + 1 + 8
          = pos + property_size ⟨name, wire_value.supported (amf_value.number bits)⟩ := by
        simp only [property_size, value_size]; omega
      simp only [type_tag, value_bytes, h8, List.cons_append, List.nil_append,
        fread_double_cons, h8v, hpos, reported, AMF_TYPE_NUMBER, Fin.val_zero, if_true]
      cases read_properties n 0 _ <;> rfl
    | boolean v =>
      have hpos : pos + 2 + name.length + 1 + 1
          = pos + property_size ⟨name, wire_value.supported (amf_value.boolean v)⟩ := by
        simp only [property_size, value_size]; omega
      have h10 : ¬ ((1 : Byte).val = AMF_TYPE_NUMBER) := by decide
      have h11 : (1 : Byte).val = AMF_TYPE_BOOLEAN := by decide
      simp only [type_tag, value_bytes, List.cons_append, List.nil_append, fread_1_cons,
        hpos, reported]
      rw [if_neg h10, if_pos h11]
      cases read_properties n 1 _ <;> rfl
    | string s =>
      simp only [decide_eq_true_eq] at hv
      obtain ⟨c, d, hcd, hsv⟩ := be_bytes_two s.length hv
      have hpos : pos + 2 + name.length + 1 + 2 + s.length
          = pos + property_size ⟨name, wire_value.supported (amf_value.string s)⟩ := by
        simp only [property_size, value_size]; omega
      have h20 : ¬ ((2 : Byte).val = AMF_TYPE_NUMBER) := by decide
      have h21 : ¬ ((2 : Byte).val = AMF_TYPE_BOOLEAN) := by decide
      have h22 : (2 : Byte).val = AMF_TYPE_STRING := by decide
      simp only [type_tag, value_bytes, hcd, List.cons_append, List.nil_append,
        List.append_assoc, fread_2_cons, hsv]
      rw [if_neg h20, if_neg h21, if_pos h22]
      simp only [fread_bytes_exact s rest (pos + 2 + name.length + 1 + 2) eof s.length rfl,
        hpos, reported, ne_eq, not_true_eq_false, decide_False, Bool.and_false,
        Bool.false_eq_true, if_false]
      cases read_properties n 2 _ <;> rfl
  | other tag =>
    simp only [decide_eq_true_eq] at hv
    have hpos : pos + 2 + name.length + 1
        = pos + property_size ⟨name, wire_value.other tag⟩ := by
      simp only [property_size, value_size]; omega
    have h0 : ¬ (tag.val = AMF_TYPE_NUMBER) := by simp only [AMF_TYPE_NUMBER]; omega
    have h1 : ¬ (tag.val = AMF_TYPE_BOOLEAN) := by simp only [AMF_TYPE_BOOLEAN]; omega
    have h2 : ¬ (tag.val = AMF_TYPE_STRING) := by simp only [AMF_TYPE_STRING]; omega
    simp only [type_tag, value_bytes, List.nil_append, hpos, reported]
    rw [if_neg h0, if_neg h1, if_neg h2]
    cases read_properties n tag _ <;> simp [Except.map]

theorem reported_cons (p : wire_property) (ps : List wire_property) :
    reported (p :: ps) = reported [p] ++ reported ps := by
  obtain ⟨name, value⟩ := p
  cases value <;> simp [reported]

/-- The property loop on the wire form of `ps`: it runs to its end, reports the
properties of a supported type and consumes exactly the bytes of `ps`. -/
theorem read_properties_encode (ps : List wire_property) :
    (∀ p ∈ ps, wire_ok p = true) →
    ∀ (type : Byte) (rest : List Byte) (pos : Nat) (eof : Bool),
      read_properties ps.length type ⟨encode_properties ps ++ rest, pos, eof⟩
        = .ok ((true, reported ps), ⟨rest, pos + (ps.map property_size).sum, eof⟩) := by
  induction ps with
  | nil =>
    intro _ type rest pos eof
    simp [read_properties, encode_properties, reported, pure, Except.pure]
  | cons p ps ih =>
    intro hps type rest pos eof
    have hp : wire_ok p = true := hps p (List.mem_cons_self _ _)
    have hrest : ∀ q ∈ ps, wire_ok q = true := fun q hq => hps q (List.mem_cons_of_mem _ hq)
    have hs : encode_properties (p :: ps) ++ rest
        = encode_property p ++ (encode_properties ps ++ rest) := by
      simp [encode_properties]
    rw [hs, List.length_cons, read_properties_step _ _ _ hp, ih hrest]
    simp only [Except.map, List.map_cons, List.sum_cons, Except.ok.injEq, Prod.mk.injEq,
      FILE.mk.injEq, and_true, true_and]
    exact ⟨(reported_cons p ps).symm, by omega⟩

/-- Closed form of `read_scriptdata_tag` on a stream of at least 18 bytes: whatever the
two length bytes say, the key is the next ten bytes, the byte after them is the type
byte kept in `type`, the four bytes after it are the element count, and the property
loop starts 18 bytes into the payload; the end marker is read when the loop ran to its
end. -/
theorem read_scriptdata_tag_cons (t0 l0 l1 k0 k1 k2 k3 k4 k5 k6 k7 k8 k9 t1 n0 n1 n2 n3 : Byte)
    (rest : List Byte) (pos : Nat) (eof : Bool) :
    read_scriptdata_tag
        ⟨t0 :: l0 :: l1 :: k0 :: k1 :: k2 :: k3 :: k4 :: k5 :: k6 :: k7 :: k8 :: k9 :: t1 ::
          n0 :: n1 :: n2 :: n3 :: rest, pos, eof⟩
      = (read_properties (n0.val * 16777216 + n1.val * 65536 + n2.val * 256 + n3.val) t1
            ⟨rest, pos + 18, eof⟩).map
          (fun r => (r.1.2, if r.1.1 then (fread 1 3 r.2).2.2 else r.2)) := by
  unfold read_scriptdata_tag
  have hk : fread 1 10 ⟨k0 :: k1 :: k2 :: k3 :: k4 :: k5 :: k6 :: k7 :: k8 :: k9 :: t1 ::
      n0 :: n1 :: n2 :: n3 :: rest, pos + 1 + 2, eof⟩
      = ([k0, k1, k2, k3, k4, k5, k6, k7, k8, k9], 10,
          ⟨t1 :: n0 :: n1 :: n2 :: n3 :: rest, pos + 1 + 2 + 10, eof⟩) := by
    simp [fread]
  simp only [bind, Except.bind, fread_1_cons, fread_2_cons, hk, fread_4_cons, ne_eq,
    not_true_eq_false, decide_False, Bool.and_false, Bool.false_eq_true, if_false]
  cases read_properties (n0.val * 16777216 + n1.val * 65536 + n2.val * 256 + n3.val) t1
      ⟨rest, pos + 1 + 2 + 10 + 1 + 4, eof⟩ with
  | error e => rfl
  | ok r =>
    rcases r with ⟨⟨fin, ps⟩, f5⟩
    cases fin <;> rfl

theorem reported_to_wire (ps : List property) : reported (ps.map to_wire) = ps := by
  induction ps with
  | nil => rfl
  | cons p ps ih => simp [reported, to_wire, ih]

/-- The whole script payload in wire form with a ten-byte key area: the properties of a
supported type are reported and every byte up to the end marker is consumed. -/
theorem read_scriptdata_tag_encode
    (t0 l0 l1 k0 k1 k2 k3 k4 k5 k6 k7 k8 k9 t1 n0 n1 n2 n3 e0 e1 e2 : Byte)
    (ps : List wire_property) (tail : List Byte) (pos : Nat) (eof : Bool)
    (hN : ps.length = n0.val * 16777216 + n1.val * 65536 + n2.val * 256 + n3.val)
    (hok : ∀ p ∈ ps, wire_ok p = true) :
    read_scriptdata_tag
        ⟨t0 :: l0 :: l1 :: k0 :: k1 :: k2 :: k3 :: k4 :: k5 :: k6 :: k7 :: k8 :: k9 :: t1 ::
          n0 :: n1 :: n2 :: n3 :: (encode_properties ps ++ e0 :: e1 :: e2 :: tail), pos, eof⟩
      = .ok (reported ps,
          ⟨tail, pos + (3 + 10 + 5 + (ps.map property_size).sum + 3), eof⟩) := by
  rw [read_scriptdata_tag_cons, ← hN, read_properties_encode ps hok]
  have he : (fread 1 3 ⟨e0 :: e1 :: e2 :: tail, pos + 18 + (ps.map property_size).sum, eof⟩).2.2
      = ⟨tail, pos + 18 + (ps.map property_size).sum + 3, eof⟩ := by simp [fread]
  simp only [Except.map, if_true, he, Except.ok.injEq, Prod.mk.injEq, FILE.mk.injEq, and_true,
    true_and]
  omega

/-- C15, as a counterexample: a script payload with a six-byte key, declared element
count 1 and one property of type Number (empty name, value 0), all of whose bytes are
available.  `read_scriptdata_tag` takes ten bytes for the key, reads the element count
four bytes too far (it finds 0) and reports no property at all, stopping 21 bytes into
the 28-byte payload. -/
theorem C15_counterexample :
    read_scriptdata_tag
      (fopen ([2, 0, 6] ++ [0x61, 0x62, 0x63, 0x64, 0x65, 0x66] ++ [8, 0, 0, 0, 1]
        ++ encode_properties [to_wire { name := [], value := amf_value.number 0 }]
        ++ [0, 0, 9]))
      = .ok ([], ⟨[0, 0, 0, 0, 0, 0, 9], 21, false⟩) := by
  decide

/-- C15, amended: for a script payload whose key occupies ten bytes (the decoder takes
ten bytes for the key whatever length is declared), with declared element count N, whose
N properties all have a type tag among 0 (Number), 1 (Boolean), 2 (String) and whose
bytes are all available, `read_scriptdata_tag` reports exactly those N properties, in
stream order, each with the name given by its 2-byte length-prefixed name bytes and the
value decoded according to its type tag (8-byte double, one byte, 2-byte length-prefixed
string). -/
theorem C15_script_properties_decoded
    (t0 l0 l1 k0 k1 k2 k3 k4 k5 k6 k7 k8 k9 t1 n0 n1 n2 n3 e0 e1 e2 : Byte)
    (ps : List property) (tail : List Byte) (pos : Nat) (eof : Bool)
    (hN : ps.length = n0.val * 16777216 + n1.val * 65536 + n2.val * 256 + n3.val)
    (hok : ∀ p ∈ ps, wire_ok (to_wire p) = true) :
    ∃ f1 : FILE,
      read_scriptdata_tag
          ⟨t0 :: l0 :: l1 :: k0 :: k1 :: k2 :: k3 :: k4 :: k5 :: k6 :: k7 :: k8 :: k9 :: t1 ::
            n0 :: n1 :: n2 :: n3 ::
            (encode_properties (ps.map to_wire) ++ e0 :: e1 :: e2 :: tail), pos, eof⟩
        = .ok (ps, f1)
      ∧ f1.rest = tail
      ∧ ps.length = n0.val * 16777216 + n1.val * 65536 + n2.val * 256 + n3.val := by
  have hok' : ∀ p ∈ ps.map to_wire, wire_ok p = true := by
    intro p hp
    obtain ⟨q, hq, rfl⟩ := List.mem_map.mp hp
    exact hok q hq
  have h := read_scriptdata_tag_encode t0 l0 l1 k0 k1 k2 k3 k4 k5 k6 k7 k8 k9 t1 n0 n1 n2 n3
    e0 e1 e2 (ps.map to_wire) tail pos eof (by rw [List.length_map]; exact hN) hok'
  rw [reported_to_wire] at h
  exact ⟨_, h, rfl, hN⟩

/-- C15, amended, at the key `onMetaData` and the three properties `a` = Number 2^62
(the double 2.0), `b` = Boolean 1, `c` = String `hi`. -/
theorem C15_script_properties_decoded_witness :
    ([{ name := [0x61], value := amf_value.number 4611686018427387904 },
      { name := [0x62], value := amf_value.boolean 1 },
      { name := [0x63], value := amf_value.string [0x68, 0x69] }] : List property).length
      = (0 : Byte).val * 16777216 + (0 : Byte).val * 65536 + (0 : Byte).val * 256
        + (3 : Byte).val
    ∧ ∃ f1 : FILE,
      read_scriptdata_tag
          ⟨2 :: 0 :: 10 :: 0x6F :: 0x6E :: 0x4D :: 0x65 :: 0x74 :: 0x61 :: 0x44 :: 0x61 ::
            0x74 :: 0x61 :: 8 :: 0 :: 0 :: 0 :: 3 ::
            (encode_properties (List.map to_wire
              [{ name := [0x61], value := amf_value.number 4611686018427387904 },
               { name := [0x62], value := amf_value.boolean 1 },
               { name := [0x63], value := amf_value.string [0x68, 0x69] }])
              ++ 0 :: 0 :: 9 :: [0, 0, 0, 50]), 15, false⟩
        = .ok ([{ name := [0x61], value := amf_value.number 4611686018427387904 },
                { name := [0x62], value := amf_value.boolean 1 },
                { name := [0x63], value := amf_value.string [0x68, 0x69] }], f1)
      ∧ f1.rest = [0, 0, 0, 50]
      ∧ ([{ name := [0x61], value := amf_value.number 4611686018427387904 },
          { name := [0x62], value := amf_value.boolean 1 },
          { name := [0x63], value := amf_value.string [0x68, 0x69] }] : List property).length
        = (0 : Byte).val * 16777216 + (0 : Byte).val * 65536 + (0 : Byte).val * 256
          + (3 : Byte).val :=
  ⟨by decide,
   C15_script_properties_decoded 2 0 10 0x6F 0x6E 0x4D 0x65 0x74 0x61 0x44 0x61 0x74 0x61 8
     0 0 0 3 0 0 9 _ [0, 0, 0, 50] 15 false (by decide) (by decide)⟩


/-- C16, as a counterexample: a script payload whose key string declares length 7,
followed by the array type byte 08, the element count 0 and the end marker.  The decoder
takes ten bytes for the key, so the bytes it reads as type byte and element count lie at
payload offsets 13 and 14..17 instead of 10 and 11..14: it finds the count 9 and reports
nine properties read past the end of the stream, where the claim has none. -/
theorem C16_counterexample :
    read_scriptdata_tag (fopen [2, 0, 7, 1, 2, 3, 4, 5, 6, 7, 8, 0, 0, 0, 0, 0, 0, 9])
      = .ok (List.replicate 9 { name := [], value := amf_value.number 0 },
             ⟨[], 18, true⟩) := by
  decide

/-- C16, amended: whatever 2-byte length the leading key string declares,
`read_scriptdata_tag` consumes exactly ten bytes as the key: its result does not depend
on the two length bytes, the byte at payload offset 13 is the one kept as array type
byte, the element count is the big-endian value of the bytes at offsets 14..17, and the
property loop starts at payload offset 18. -/
theorem C16_key_is_ten_bytes
    (t0 l0 l1 k0 k1 k2 k3 k4 k5 k6 k7 k8 k9 t1 n0 n1 n2 n3 : Byte)
    (rest : List Byte) (pos : Nat) (eof : Bool) :
    read_scriptdata_tag
        ⟨t0 :: l0 :: l1 :: k0 :: k1 :: k2 :: k3 :: k4 :: k5 :: k6 :: k7 :: k8 :: k9 :: t1 ::
          n0 :: n1 :: n2 :: n3 :: rest, pos, eof⟩
      = (read_properties (n0.val * 16777216 + n1.val * 65536 + n2.val * 256 + n3.val) t1
            ⟨rest, pos + 18, eof⟩).map
          (fun r => (r.1.2, if r.1.1 then (fread 1 3 r.2).2.2 else r.2))
    ∧ ∀ m0 m1 : Byte,
        read_scriptdata_tag
            ⟨t0 :: m0 :: m1 :: k0 :: k1 :: k2 :: k3 :: k4 :: k5 :: k6 :: k7 :: k8 :: k9 :: t1 ::
              n0 :: n1 :: n2 :: n3 :: rest, pos, eof⟩
          = read_scriptdata_tag
            ⟨t0 :: l0 :: l1 :: k0 :: k1 :: k2 :: k3 :: k4 :: k5 :: k6 :: k7 :: k8 :: k9 :: t1 ::
              n0 :: n1 :: n2 :: n3 :: rest, pos, eof⟩ := by
  constructor
  · exact read_scriptdata_tag_cons t0 l0 l1 k0 k1 k2 k3 k4 k5 k6 k7 k8 k9 t1 n0 n1 n2 n3
      rest pos eof
  · intro m0 m1
    rw [read_scriptdata_tag_cons, read_scriptdata_tag_cons]

/-! ## Script data: bytes consumed -/

/-- `flv_read_tag` on a script tag: the header, then `read_scriptdata_tag`. -/
theorem flv_read_tag_script (f f1 : FILE) (t : flv_tag)
    (hh : flv_read_tag_header f = .ok (some t, f1))
    (hty : t.tag_type = TAGTYPE_SCRIPTDATAOBJECT) :
    flv_read_tag f = (read_scriptdata_tag f1).map
      (fun r => (some { t with data := tag_data.script r.1 }, r.2)) := by
  unfold flv_read_tag
  have h8 : ¬ (TAGTYPE_SCRIPTDATAOBJECT = TAGTYPE_AUDIODATA) := by decide
  have h9 : ¬ (TAGTYPE_SCRIPTDATAOBJECT = TAGTYPE_VIDEODATA) := by decide
  simp only [hh, bind, Except.bind, hty, h8, h9, if_true, if_false]
  cases read_scriptdata_tag f1 <;> rfl

/-- C20: for a script payload whose bytes are all available, with N properties,
`read_scriptdata_tag` consumes exactly 3 + 10 + 5 + the sum over the properties of
(2 + name length + 1 + v) + 3 bytes, where v is 8 for type tag 0, 1 for type tag 1,
2 + string length for type tag 2 and 0 for any other type tag (the next property starts
right after such a tag).  The count does not depend on the three end-marker bytes, nor,
when the payload is read by `flv_read_tag`, on the payload_size declared in the tag
header. -/
theorem C20_script_bytes_consumed
    (t0 l0 l1 k0 k1 k2 k3 k4 k5 k6 k7 k8 k9 t1 n0 n1 n2 n3 e0 e1 e2 : Byte)
    (ps : List wire_property) (tail : List Byte) (pos : Nat) (eof : Bool)
    (hN : ps.length = n0.val * 16777216 + n1.val * 65536 + n2.val * 256 + n3.val)
    (hok : ∀ p ∈ ps, wire_ok p = true) :
    read_scriptdata_tag
        ⟨t0 :: l0 :: l1 :: k0 :: k1 :: k2 :: k3 :: k4 :: k5 :: k6 :: k7 :: k8 :: k9 :: t1 ::
          n0 :: n1 :: n2 :: n3 :: (encode_properties ps ++ e0 :: e1 :: e2 :: tail), pos, eof⟩
      = .ok (reported ps,
          ⟨tail, pos + (3 + 10 + 5 + (ps.map property_size).sum + 3), eof⟩)
    ∧ ∀ p0 p1 p2 p3 b0 s0 s1 s2 c0 c1 c2 ce i0 i1 i2 : Byte, b0.val &&& 0x1F = 18 →
        ∃ t : flv_tag,
          flv_read_tag
              ⟨p0 :: p1 :: p2 :: p3 :: b0 :: s0 :: s1 :: s2 :: c0 :: c1 :: c2 :: ce :: i0 ::
                i1 :: i2 :: t0 :: l0 :: l1 :: k0 :: k1 :: k2 :: k3 :: k4 :: k5 :: k6 :: k7 ::
                k8 :: k9 :: t1 :: n0 :: n1 :: n2 :: n3 ::
                (encode_properties ps ++ e0 :: e1 :: e2 :: tail), pos, eof⟩
            = .ok (some t,
                ⟨tail, pos + 15 + (3 + 10 + 5 + (ps.map property_size).sum + 3), eof⟩)
          ∧ t.data_size = s0.val * 65536 + s1.val * 256 + s2.val
          ∧ t.data = tag_data.script (reported ps) := by
  have h := read_scriptdata_tag_encode t0 l0 l1 k0 k1 k2 k3 k4 k5 k6 k7 k8 k9 t1 n0 n1 n2 n3
    e0 e1 e2 ps tail
  refine ⟨h pos eof hN hok, ?_⟩
  intro p0 p1 p2 p3 b0 s0 s1 s2 c0 c1 c2 ce i0 i1 i2 h18
  have hh := flv_read_tag_header_cons p0 p1 p2 p3 b0 s0 s1 s2 c0 c1 c2 ce i0 i1 i2
    (t0 :: l0 :: l1 :: k0 :: k1 :: k2 :: k3 :: k4 :: k5 :: k6 :: k7 :: k8 :: k9 :: t1 ::
      n0 :: n1 :: n2 :: n3 :: (encode_properties ps ++ e0 :: e1 :: e2 :: tail)) pos eof
  rw [flv_read_tag_script _ _ _ hh h18, h (pos + 15) eof hN hok]
  simp only [Except.map]
  exact ⟨_, rfl, rfl, rfl⟩

/-- C20 at a script tag with declared payload_size 0 that holds a Boolean property `a`
and a property `b` of the unsupported type 5. -/
theorem C20_script_bytes_consumed_witness :
    ([{ name := [0x61], value := wire_value.supported (amf_value.boolean 1) },
      { name := [0x62], value := wire_value.other 5 }] : List wire_property).length
      = (0 : Byte).val * 16777216 + (0 : Byte).val * 65536 + (0 : Byte).val * 256
        + (2 : Byte).val
    ∧ read_scriptdata_tag
        ⟨2 :: 0 :: 10 :: 0x6F :: 0x6E :: 0x4D :: 0x65 :: 0x74 :: 0x61 :: 0x44 :: 0x61 ::
          0x74 :: 0x61 :: 8 :: 0 :: 0 :: 0 :: 2 ::
          (encode_properties
            [{ name := [0x61], value := wire_value.supported (amf_value.boolean 1) },
             { name := [0x62], value := wire_value.other 5 }]
            ++ 0 :: 0 :: 9 :: [77]), 15, false⟩
      = .ok (reported
            [{ name := [0x61], value := wire_value.supported (amf_value.boolean 1) },
             { name := [0x62], value := wire_value.other 5 }],
          ⟨[77], 15 + (3 + 10 + 5 + (List.map property_size
            [{ name := [0x61], value := wire_value.supported (amf_value.boolean 1) },
             { name := [0x62], value := wire_value.other 5 }]).sum + 3), false⟩) :=
  ⟨by decide,
   (C20_script_bytes_consumed 2 0 10 0x6F 0x6E 0x4D 0x65 0x74 0x61 0x44 0x61 0x74 0x61 8
     0 0 0 2 0 0 9 _ [77] 15 false (by decide) (by decide)).1⟩

/-! ## Composition time -/

/-- C21: for every three composition-time bytes c0 c1 c2, every tag returned by
`read_avc_video_tag` carries composition_time = c0*65536 + c1*256 + c2, an unsigned
quantity below 2^24, bit 23 not being sign-extended; a tag is returned whenever the
packet type is not 1 (and for type 1 unless the buffer is refused).  The bytes FF FF FF
yield 16777215. -/
theorem C21_composition_time_unsigned (pt c0 c1 c2 : Byte) (tail : List Byte) (pos : Nat)
    (eof : Bool) (size : Nat) :
    (∀ (t : avc_video_tag) (f1 : FILE),
      read_avc_video_tag size ⟨pt :: c0 :: c1 :: c2 :: tail, pos, eof⟩ = .ok (some t, f1) →
      t.composition_time = c0.val * 65536 + c1.val * 256 + c2.val
      ∧ t.composition_time < 2 ^ 24)
    ∧ ((pt.val = 1 → malloc_ok (sub_size_t (sub_size_t (sub_size_t size 1) 3) 4) = true) →
      ∃ (t : avc_video_tag) (f1 : FILE),
        read_avc_video_tag size ⟨pt :: c0 :: c1 :: c2 :: tail, pos, eof⟩ = .ok (some t, f1)
        ∧ t.composition_time = c0.val * 65536 + c1.val * 256 + c2.val)
    ∧ read_avc_video_tag 4 (fopen [0, 0xFF, 0xFF, 0xFF])
      = .ok (some { avc_packet_type := 0, composition_time := 16777215, nalu_len := 0,
                    data := [] }, ⟨[], 4, false⟩) := by
  have hct : be_value 3 (fread 1 1 ⟨pt :: c0 :: c1 :: c2 :: tail, pos, eof⟩).2.2.rest
      = c0.val * 65536 + c1.val * 256 + c2.val := by
    simp [fread, be_value, byte_at, List.range_succ]; omega
  have hlt : c0.val * 65536 + c1.val * 256 + c2.val < 2 ^ 24 := by omega
  refine ⟨?_, ?_, by decide⟩
  · intro t f1 h
    rw [read_avc_video_tag_eq, hct] at h
    split_ifs at h
    · simp only [Except.ok.injEq, Prod.mk.injEq] at h
      exact absurd h.1 (by simp)
    · simp only [Except.ok.injEq, Prod.mk.injEq, Option.some.injEq] at h
      rw [← h.1]
      exact ⟨rfl, hlt⟩
    · simp only [Except.ok.injEq, Prod.mk.injEq, Option.some.injEq] at h
      rw [← h.1]
      exact ⟨rfl, hlt⟩
  · intro hm
    rw [read_avc_video_tag_eq, hct]
    by_cases hp : ((⟨pt :: c0 :: c1 :: c2 :: tail, pos, eof⟩ : FILE).rest.headD 0).val = 1
    · have hm' := hm hp
      rw [if_pos hp, hm']
      exact ⟨_, _, rfl, rfl⟩
    · rw [if_neg hp]
      exact ⟨_, _, rfl, rfl⟩

/-- C21 at a sequence header (packet type 0) with composition-time bytes 80 00 01. -/
theorem C21_composition_time_unsigned_witness :
    ((0 : Byte).val = 1 → malloc_ok (sub_size_t (sub_size_t (sub_size_t 6 1) 3) 4) = true)
    ∧ ∃ (t : avc_video_tag) (f1 : FILE),
        read_avc_video_tag 6 ⟨0 :: 0x80 :: 0 :: 1 :: [7, 8], 16, false⟩ = .ok (some t, f1)
        ∧ t.composition_time = (0x80 : Byte).val * 65536 + (0 : Byte).val * 256
          + (1 : Byte).val :=
  ⟨by decide,
   (C21_composition_time_unsigned 0 0x80 0 1 [7, 8] 16 false 6).2.1 (by decide)⟩

/-! ## The bit-field extractor -/

theorem flv_get_bits_extract (v : Byte) (s : Fin 8) (c : Fin 9) :
    flv_get_bits v.val s.val c.val = extract v.val s.val c.val := by
  revert v s c; decide!

/-- C22: `flv_get_bits` agrees with the extractor of the specification: for every byte
value, every start_bit ≤ 7 and every count ≤ 8, also when start_bit + count exceeds 8,
`flv_get_bits value start_bit count = (value >> start_bit) & ((1 << count) - 1)`, bit 0
being the least significant bit. -/
theorem C22_flv_get_bits_refines_extract (value start_bit count : Nat)
    (hv : value < 256) (hs : start_bit ≤ 7) (hc : count ≤ 8) :
    flv_get_bits value start_bit count = extract value start_bit count
    ∧ extract value start_bit count = (value >>> start_bit) &&& ((1 <<< count) - 1)
    ∧ extract value 0 1 = value % 2 :=
  ⟨flv_get_bits_extract ⟨value, hv⟩ ⟨start_bit, by omega⟩ ⟨count, by omega⟩, rfl,
   by unfold extract; simp [Nat.and_one_is_mod]⟩

/-- C22 at value 0xAF, start bit 6 and count 8 (start_bit + count = 14). -/
theorem C22_flv_get_bits_refines_extract_witness :
    (0xAF : Nat) < 256 ∧ (6 : Nat) ≤ 7 ∧ (8 : Nat) ≤ 8
    ∧ flv_get_bits 0xAF 6 8 = extract 0xAF 6 8
    ∧ extract 0xAF 6 8 = (0xAF >>> 6) &&& ((1 <<< 8) - 1)
    ∧ extract 0xAF 0 1 = 0xAF % 2 :=
  ⟨by decide, by decide, by decide,
   C22_flv_get_bits_refines_extract 0xAF 6 8 (by decide) (by decide) (by decide)⟩


/-! ## Bounds of the video fields -/

/-- C24, the code evaluated where the claim fails: frame type and codec id are the two
4-bit halves of the first payload byte and reach 15, while `frame_types` has 6 entries
and `codec_ids` has 8.  For the first byte 0xFF `read_video_tag` returns frame_type 15
and codec_id 15, for 0x68 frame_type 6 and codec_id 8: the indices used for the two table
lookups lie outside the tables. -/
theorem C24_video_fields_exceed_tables :
    frame_types.length = 6 ∧ codec_ids.length = 8
    ∧ read_video_tag 1 (fopen [0xFF])
      = .ok (some { frame_type := 15, codec_id := 15, data := video_data.raw [],
                    seek := none }, ⟨[], 1, false⟩)
    ∧ ¬ (15 < frame_types.length) ∧ ¬ (15 < codec_ids.length)
    ∧ read_video_tag 3 (fopen [0x68, 1, 2])
      = .ok (some { frame_type := 6, codec_id := 8, data := video_data.raw [1, 2],
                    seek := none }, ⟨[], 3, false⟩)
    ∧ ¬ (6 < frame_types.length) ∧ ¬ (8 < codec_ids.length)
    ∧ (∀ b : Byte, flv_get_bits b.val 4 4 = b.val >>> 4
        ∧ flv_get_bits b.val 0 4 = b.val &&& 15) := by
  refine ⟨by decide, by decide, by decide, by decide, by decide, by decide, by decide,
    by decide, video_bit_fields⟩

/-! ## Filter flag and tag type -/

theorem filter_and_type (b : Byte) :
    (b.val &&& 0x10 = 0 ∨ b.val &&& 0x10 = 16)
    ∧ (b.val &&& 0x10 ≠ 0 ↔ 16 ≤ b.val &&& 0x1F)
    ∧ (b.val &&& 0x1F = 18 → b.val &&& 0x10 = 16)
    ∧ (b.val &&& 0x1F = 8 ∨ b.val &&& 0x1F = 9 → b.val &&& 0x10 = 0)
    ∧ b.val &&& 0x10 = (b.val % 32) &&& 0x10
    ∧ b.val &&& 0x1F = b.val % 32 := by
  revert b; decide!

/-- C25: for every leading tag byte b0, `flv_read_tag` sets filter = b0 & 0x10, a value
in {0, 16}, and tag_type = b0 & 0x1F, so that filter ≠ 0 exactly when tag_type ≥ 16; a
tag dispatched as Script (18) has filter 16, a tag dispatched as Audio (8) or Video (9)
has filter 0, and two leading bytes that agree on bits 0..4 give the same two fields
(bits 5..7 affect neither). -/
theorem C25_filter_depends_on_tag_type (p0 p1 p2 p3 b0 : Byte) (tail : List Byte)
    (pos : Nat) (eof : Bool) :
    ∃ (t : flv_tag) (f1 : FILE),
      flv_read_tag_header ⟨p0 :: p1 :: p2 :: p3 :: b0 :: tail, pos, eof⟩ = .ok (some t, f1)
      ∧ t.filter = b0.val &&& 0x10
      ∧ (t.filter = 0 ∨ t.filter = 16)
      ∧ t.tag_type = b0.val &&& 0x1F
      ∧ (t.filter ≠ 0 ↔ 16 ≤ t.tag_type)
      ∧ (∀ (t2 : flv_tag) (f2 : FILE),
          flv_read_tag ⟨p0 :: p1 :: p2 :: p3 :: b0 :: tail, pos, eof⟩ = .ok (some t2, f2) →
          (t2.tag_type = 18 → t2.filter = 16)
          ∧ (t2.tag_type = 8 ∨ t2.tag_type = 9 → t2.filter = 0)
          ∧ (t2.tag_type = 8 ∨ t2.tag_type = 9 ∨ t2.tag_type = 18))
      ∧ (∀ c0 : Byte, c0.val % 32 = b0.val % 32 →
          ∃ (t3 : flv_tag) (f3 : FILE),
            flv_read_tag_header ⟨p0 :: p1 :: p2 :: p3 :: c0 :: tail, pos, eof⟩
              = .ok (some t3, f3)
            ∧ t3.filter = t.filter ∧ t3.tag_type = t.tag_type) := by
  obtain ⟨h1, h2, h3, h4, h5, h6⟩ := filter_and_type b0
  have hh := flv_read_tag_header_some p0 p1 p2 p3 b0 tail pos eof
  refine ⟨_, _, hh, rfl, h1, rfl, h2, ?_, ?_⟩
  · intro t2 f2 h
    obtain ⟨k1, k2, -⟩ := flv_read_tag_keeps_header _ _ _ _ _ hh h
    rw [k1, k2]
    refine ⟨h3, h4, ?_⟩
    show b0.val &&& 0x1F = 8 ∨ b0.val &&& 0x1F = 9 ∨ b0.val &&& 0x1F = 18
    by_contra hne
    have hne' : ¬ (b0.val &&& 0x1F = 8) ∧ ¬ (b0.val &&& 0x1F = 9)
        ∧ ¬ (b0.val &&& 0x1F = 18) := by
      refine ⟨fun e => hne (Or.inl e), fun e => hne (Or.inr (Or.inl e)),
        fun e => hne (Or.inr (Or.inr e))⟩
    unfold flv_read_tag at h
    simp only [hh, bind, Except.bind, TAGTYPE_AUDIODATA, TAGTYPE_VIDEODATA,
      TAGTYPE_SCRIPTDATAOBJECT] at h
    rw [if_neg hne'.1, if_neg hne'.2.1, if_neg hne'.2.2] at h
    simp [die] at h
  · intro c0 hc
    obtain ⟨-, -, -, -, g5, g6⟩ := filter_and_type c0
    refine ⟨_, _, flv_read_tag_header_some p0 p1 p2 p3 c0 tail pos eof, ?_, ?_⟩
    · show c0.val &&& 16 = b0.val &&& 16
      rw [g5, h5, hc]
    · show c0.val &&& 0x1F = b0.val &&& 0x1F
      rw [g6, h6, hc]

/-- C25 at the leading byte 0x12 of a script tag, compared with 0xF2. -/
theorem C25_filter_depends_on_tag_type_witness :
    (0xF2 : Byte).val % 32 = (0x12 : Byte).val % 32
    ∧ ∃ (t3 : flv_tag) (f3 : FILE),
        flv_read_tag_header ⟨0 :: 0 :: 0 :: 0 :: 0xF2 :: [0, 0, 0], 9, false⟩
          = .ok (some t3, f3)
        ∧ t3.filter = 16 ∧ t3.tag_type = 18 :=
  let ⟨_, _, h, hf, _, ht, _, _, hc⟩ :=
    C25_filter_depends_on_tag_type 0 0 0 0 0x12 [0, 0, 0] 9 false
  let ⟨t3, f3, h3, k1, k2⟩ := hc 0xF2 (by decide)
  ⟨by decide, t3, f3, h3, k1.trans hf, k2.trans ht⟩


/-! ## Doubles -/

theorem ieee_754_value_two : ieee_754_value 0x4000000000000000 = some 2 := by
  unfold ieee_754_value
  norm_num

/-- C23: for every eight wire bytes b0..b7, `fread_double` returns the double whose
64-bit pattern is the big-endian integer b0*2^56 + b1*2^48 + ... + b7: the eight bytes
are stored fully reversed (wire byte i becomes memory byte 7 − i) and read in the
little-endian order of the host.  The bytes 40 00 00 00 00 00 00 00 give the pattern
0x4000000000000000, which denotes 2.0; exchanging the two 32-bit words instead would
give another pattern. -/
theorem C23_fread_double_reverses_bytes (b0 b1 b2 b3 b4 b5 b6 b7 : Byte)
    (rest : List Byte) (pos : Nat) (eof : Bool) :
    fread_double ⟨b0 :: b1 :: b2 :: b3 :: b4 :: b5 :: b6 :: b7 :: rest, pos, eof⟩
      = .ok (le_value [b0, b1, b2, b3, b4, b5, b6, b7].reverse, ⟨rest, pos + 8, eof⟩)
    ∧ le_value [b0, b1, b2, b3, b4, b5, b6, b7].reverse
      = b0.val * 2 ^ 56 + b1.val * 2 ^ 48 + b2.val * 2 ^ 40 + b3.val * 2 ^ 32
        + b4.val * 2 ^ 24 + b5.val * 2 ^ 16 + b6.val * 2 ^ 8 + b7.val
    ∧ le_value [b0, b1, b2, b3, b4, b5, b6, b7].reverse < 2 ^ 64
    ∧ fread_double (fopen [0x40, 0, 0, 0, 0, 0, 0, 0])
      = .ok (0x4000000000000000, ⟨[], 8, false⟩)
    ∧ ieee_754_value 0x4000000000000000 = some 2
    ∧ le_value ([0, 0, 0, 0] ++ [0x40, 0, 0, 0]) ≠ 0x4000000000000000 := by
  have hv : le_value [b0, b1, b2, b3, b4, b5, b6, b7].reverse
      = b0.val * 2 ^ 56 + b1.val * 2 ^ 48 + b2.val * 2 ^ 40 + b3.val * 2 ^ 32
        + b4.val * 2 ^ 24 + b5.val * 2 ^ 16 + b6.val * 2 ^ 8 + b7.val := by
    simp only [List.reverse_cons, List.reverse_nil, List.nil_append, List.cons_append,
      le_value]
    omega
  refine ⟨?_, hv, ?_, by decide, ieee_754_value_two, by decide⟩
  · rw [fread_double_cons, hv]
    simp only [Except.ok.injEq, Prod.mk.injEq, and_true]
    omega
  · rw [hv]
    omega


/-! ## Stream position and termination of the tag loop -/

/-- A read moves bytes from the unread part to the consumed part: offset plus remaining
length does not change. -/
theorem fread_total (size nmemb : Nat) (f : FILE) :
    (fread size nmemb f).2.2.pos + (fread size nmemb f).2.2.rest.length
      = f.pos + f.rest.length := by
  rw [fread_state]
  simp only [List.length_drop]
  omega

theorem read_audio_tag_total (data_size : Nat) (f f1 : FILE) (r : Option audio_tag)
    (h : read_audio_tag data_size f = .ok (r, f1)) :
    f1.pos + f1.rest.length = f.pos + f.rest.length := by
  rw [read_audio_tag_eq] at h
  split_ifs at h
  all_goals
    (simp only [Except.ok.injEq, Prod.mk.injEq] at h
     rw [← h.2]
     repeat rw [fread_total])

theorem read_avc_video_tag_total (data_size : Nat) (f f1 : FILE) (r : Option avc_video_tag)
    (h : read_avc_video_tag data_size f = .ok (r, f1)) :
    f1.pos + f1.rest.length = f.pos + f.rest.length := by
  rw [read_avc_video_tag_eq] at h
  split_ifs at h
  all_goals
    (simp only [Except.ok.injEq, Prod.mk.injEq] at h
     rw [← h.2]
     repeat rw [fread_total])

theorem read_video_tag_total (data_size : Nat) (f f1 : FILE) (r : Option video_tag)
    (h : read_video_tag data_size f = .ok (r, f1)) :
    f1.pos + f1.rest.length = f.pos + f.rest.length := by
  rw [read_video_tag_eq] at h
  split_ifs at h
  · cases ha : read_avc_video_tag (sub_u32 data_size 1) (fread 1 1 f).2.2 with
    | error e => simp [ha, Except.map] at h
    | ok v =>
      have := read_avc_video_tag_total _ _ v.2 v.1 ha
      simp only [ha, Except.map, Except.ok.injEq, Prod.mk.injEq] at h
      rw [← h.2, this, fread_total]
  all_goals
    (simp only [Except.ok.injEq, Prod.mk.injEq] at h
     rw [← h.2]
     repeat rw [fread_total])

theorem read_properties_total (n : Nat) :
    ∀ (type : Byte) (f f1 : FILE) (r : Bool × List property),
      read_properties n type f = .ok (r, f1) →
      f1.pos + f1.rest.length = f.pos + f.rest.length ∧ r.2.length ≤ n := by
  induction n with
  | zero =>
    intro type f f1 r h
    simp only [read_properties, pure, Except.pure, Except.ok.injEq, Prod.mk.injEq] at h
    rw [← h.2, ← h.1]
    exact ⟨rfl, Nat.le_refl _⟩
  | succ n ih =>
    intro type f f1 r h
    unfold read_properties at h
    simp only [fread_1_ok, fread_2_ok, fread_double_ok, bind, Except.bind, pure,
      Except.pure] at h
    split_ifs at h
    · split at h
      · simp at h
      · rename_i v hv
        obtain ⟨h1, h2⟩ := ih _ _ _ _ hv
        simp only [Except.ok.injEq, Prod.mk.injEq] at h
        rw [← h.2, ← h.1, h1]
        refine ⟨?_, Nat.succ_le_succ h2⟩
        repeat rw [fread_total]
    · split at h
      · simp at h
      · rename_i v hv
        obtain ⟨h1, h2⟩ := ih _ _ _ _ hv
        simp only [Except.ok.injEq, Prod.mk.injEq] at h
        rw [← h.2, ← h.1, h1]
        refine ⟨?_, Nat.succ_le_succ h2⟩
        repeat rw [fread_total]
    · simp only [Except.ok.injEq, Prod.mk.injEq] at h
      rw [← h.2, ← h.1]
      refine ⟨?_, by simp⟩
      repeat rw [fread_total]
    · split at h
      · simp at h
      · rename_i v hv
        obtain ⟨h1, h2⟩ := ih _ _ _ _ hv
        simp only [Except.ok.injEq, Prod.mk.injEq] at h
        rw [← h.2, ← h.1, h1]
        refine ⟨?_, Nat.succ_le_succ h2⟩
        repeat rw [fread_total]
    · obtain ⟨h1, h2⟩ := ih _ _ _ _ h
      rw [h1]
      refine ⟨?_, by omega⟩
      repeat rw [fread_total]

theorem read_scriptdata_tag_total (f f1 : FILE) (r : List property)
    (h : read_scriptdata_tag f = .ok (r, f1)) :
    f1.pos + f1.rest.length = f.pos + f.rest.length := by
  unfold read_scriptdata_tag at h
  simp only [fread_1_ok, fread_2_ok, fread_4_ok, bind, Except.bind, pure, Except.pure] at h
  split_ifs at h
  · simp only [Except.ok.injEq, Prod.mk.injEq] at h
    rw [← h.2]
    repeat rw [fread_total]
  · split at h
    · simp at h
    · rename_i v hv
      have := (read_properties_total _ _ _ _ _ hv).1
      split_ifs at h
      all_goals
        (simp only [Except.ok.injEq, Prod.mk.injEq] at h
         rw [← h.2]
         try rw [fread_total]
         rw [this]
         repeat rw [fread_total])

theorem flv_read_tag_header_total (f f1 : FILE) (t : Option flv_tag)
    (h : flv_read_tag_header f = .ok (t, f1)) :
    f1.pos + f1.rest.length = f.pos + f.rest.length := by
  unfold flv_read_tag_header at h
  simp only [fread_1_ok, fread_3_ok, fread_4_ok, bind, Except.bind, pure, Except.pure] at h
  split_ifs at h
  all_goals
    (simp only [Except.ok.injEq, Prod.mk.injEq] at h
     rw [← h.2]
     repeat rw [fread_total])

theorem flv_read_tag_total (f f1 : FILE) (t : Option flv_tag)
    (h : flv_read_tag f = .ok (t, f1)) :
    f1.pos + f1.rest.length = f.pos + f.rest.length := by
  unfold flv_read_tag at h
  simp only [bind, Except.bind] at h
  split at h
  · simp at h
  · rename_i v hv
    rcases v with ⟨_ | t0, g⟩
    · have hh := flv_read_tag_header_total _ _ _ hv
      simp only [pure, Except.pure, Except.ok.injEq, Prod.mk.injEq] at h
      rw [← h.2]; exact hh
    · have hh := flv_read_tag_header_total _ _ _ hv
      dsimp only at h
      split_ifs at h
      · split at h
        · simp at h
        · rename_i w hw
          have := read_audio_tag_total _ _ _ _ hw
          simp only [pure, Except.pure, Except.ok.injEq, Prod.mk.injEq] at h
          rw [← h.2]; omega
      · split at h
        · simp at h
        · rename_i w hw
          have := read_video_tag_total _ _ _ _ hw
          simp only [pure, Except.pure, Except.ok.injEq, Prod.mk.injEq] at h
          rw [← h.2]; omega
      · split at h
        · simp at h
        · rename_i w hw
          have := read_scriptdata_tag_total _ _ _ hw
          simp only [pure, Except.pure, Except.ok.injEq, Prod.mk.injEq] at h
          rw [← h.2]; omega
      · simp [die] at h

/-- With at most the four bytes of a previous tag size left, no leading byte can be
read and `flv_read_tag` returns `NULL`. -/
theorem flv_read_tag_no_byte (f : FILE) (h : f.rest.length ≤ 4) :
    ∃ f1, flv_read_tag f = .ok (none, f1) := by
  have hh : flv_read_tag_header f = .ok (none, (fread 1 1 (fread 4 1 f).2.2).2.2) := by
    unfold flv_read_tag_header
    simp only [fread_1_ok, fread_4_ok, bind, Except.bind, pure, Except.pure]
    have h0 : min 1 (fread 4 1 f).2.2.rest.length = 0 := by
      rw [fread_rest_length]; omega
    rw [h0]
    simp
  unfold flv_read_tag
  simp only [hh, bind, Except.bind, pure, Except.pure]
  exact ⟨_, rfl⟩

/-- A budget above a fifth of the remaining bytes is never exhausted, and the loop
produces at most one tag per five remaining bytes. -/
theorem tag_loop_bound (fuel : Nat) :
    ∀ f : FILE, f.rest.length < 5 * fuel →
      (tag_loop fuel f).outcome ≠ Outcome.running
      ∧ 5 * (tag_loop fuel f).tags.length ≤ f.rest.length := by
  induction fuel with
  | zero => intro f h; omega
  | succ n ih =>
    intro f h
    rw [tag_loop]
    cases hr : flv_read_tag f with
    | error e =>
      obtain ⟨e1, f1⟩ := e
      simp
    | ok r =>
      obtain ⟨t, f1⟩ := r
      cases t with
      | none => simp
      | some t =>
        have hc := flv_read_tag_rest _ _ _ hr
        obtain ⟨h1, h2⟩ := ih f1 (by omega)
        dsimp only
        cases flv_free_tag t with
        | error e =>
          refine ⟨by simp, ?_⟩
          simp only [List.length_singleton]
          omega
        | ok u =>
          refine ⟨h1, ?_⟩
          simp only [List.length_cons]
          omega

/-- C26: the tag loop of `flv_parser_run` terminates on every finite input.  The run
never exhausts its iteration budget and produces at most (input length − 9) / 5 tags;
every call of `flv_read_tag` that returns a tag has advanced the stream position by at
least five bytes; every call made with no byte available after the previous tag size
returns no tag; and the property loop of a script tag, given the element count N,
returns after reporting at most N properties. -/
theorem C26_tag_loop_terminates (f : FILE) :
    (flv_parser_run f).outcome ≠ Outcome.running
    ∧ (flv_parser_run f).tags.length ≤ (f.rest.length - 9) / 5
    ∧ (∀ (t : flv_tag) (f1 : FILE), flv_read_tag f = .ok (some t, f1) →
        f.pos + 5 ≤ f1.pos ∧ f1.rest.length + 5 ≤ f.rest.length)
    ∧ (f.rest.length ≤ 4 → ∃ f1, flv_read_tag f = .ok (none, f1))
    ∧ (∀ (n : Nat) (type : Byte),
        ∃ (fin : Bool) (ps : List property) (f1 : FILE),
          read_properties n type f = .ok ((fin, ps), f1) ∧ ps.length ≤ n) := by
  refine ⟨?_, ?_, ?_, flv_read_tag_no_byte f, ?_⟩
  · rw [flv_parser_run_eq]
    split_ifs
    · exact (tag_loop_bound _ _ (by omega)).1
    · simp
  · rw [flv_parser_run_eq]
    split_ifs
    · have h := (tag_loop_bound ((fread 9 1 f).2.2.rest.length + 1) (fread 9 1 f).2.2
        (by omega)).2
      have hl := fread_rest_length 9 1 f
      omega
    · simp
  · intro t f1 h
    have h1 := flv_read_tag_rest _ _ _ h
    have h2 := flv_read_tag_total _ _ _ h
    exact ⟨by omega, h1⟩
  · intro n type
    obtain ⟨⟨⟨fin, ps⟩, f1⟩, hr⟩ := read_properties_ok n type f
    exact ⟨fin, ps, f1, hr, (read_properties_total n type f f1 (fin, ps) hr).2⟩

/-- C26 at a stream with the three bytes 00 00 00 left, at a stream holding one AAC
audio tag of two payload bytes, and at a file with that tag after its header. -/
theorem C26_tag_loop_terminates_witness :
    ((⟨[0, 0, 0], 26, false⟩ : FILE).rest.length ≤ 4
      ∧ ∃ f1, flv_read_tag ⟨[0, 0, 0], 26, false⟩ = .ok (none, f1))
    ∧ (flv_read_tag ⟨[0, 0, 0, 0, 8, 0, 0, 2, 0, 0, 0, 0, 0, 0, 0, 0xAF, 1, 0, 0, 0, 13],
          9, false⟩
        = .ok (some { filter := 0, tag_type := 8, data_size := 2, timestamp := 0,
                      timestamp_ext := 0, stream_id := 0,
                      data := tag_data.audio (some ⟨10, 3, 1, 1, [], some 1⟩) },
               ⟨[0, 0, 0, 13], 26, false⟩)
      ∧ (9 : Nat) + 5 ≤ 26
      ∧ ([0, 0, 0, 13] : List Byte).length + 5
          ≤ ([0, 0, 0, 0, 8, 0, 0, 2, 0, 0, 0, 0, 0, 0, 0, 0xAF, 1, 0, 0, 0, 13] :
              List Byte).length)
    ∧ (flv_parser_run (fopen [0x46, 0x4C, 0x56, 1, 5, 0, 0, 0, 9,
        0, 0, 0, 0, 8, 0, 0, 2, 0, 0, 0, 0, 0, 0, 0, 0xAF, 1, 0, 0, 0, 13])).tags.length
      ≤ ((fopen [0x46, 0x4C, 0x56, 1, 5, 0, 0, 0, 9,
        0, 0, 0, 0, 8, 0, 0, 2, 0, 0, 0, 0, 0, 0, 0, 0xAF, 1, 0, 0, 0, 13]).rest.length
          - 9) / 5 :=
  ⟨⟨by decide, (C26_tag_loop_terminates ⟨[0, 0, 0], 26, false⟩).2.2.2.1 (by decide)⟩,
   ⟨by decide,
    (C26_tag_loop_terminates
      ⟨[0, 0, 0, 0, 8, 0, 0, 2, 0, 0, 0, 0, 0, 0, 0, 0xAF, 1, 0, 0, 0, 13], 9, false⟩).2.2.1
      ⟨0, 8, 2, 0, 0, 0, tag_data.audio (some ⟨10, 3, 1, 1, [], some 1⟩)⟩
      ⟨[0, 0, 0, 13], 26, false⟩ (by decide)⟩,
   (C26_tag_loop_terminates (fopen [0x46, 0x4C, 0x56, 1, 5, 0, 0, 0, 9,
        0, 0, 0, 0, 8, 0, 0, 2, 0, 0, 0, 0, 0, 0, 0, 0xAF, 1, 0, 0, 0, 13])).2.1⟩

end FlvParser
